import Mathlib

/-!
The world-gen service: a shallow embedding of the world generator and its stores.

The Go service `services.WorldService` builds a `models.World` from themed
content tables, writes it to PostgreSQL and Redis, and serves it back.

Conventions of the embedding

* `math/rand` is an explicit oracle: every `rand.Intn(n)` consumes one natural
  number `r` of the oracle and yields `r % n`; a universally quantified oracle
  covers every outcome of the draws.  `rand.Intn(0)` panics.
* Go leaves the iteration order of a map unspecified; a `range` loop that
  stops at its first entry therefore consumes one number of a second,
  independent component of the oracle, which selects that entry.
* A run-time panic (index out of range, `Intn` on an empty range) is the
  result `none`.
* A Go map is an association list; `m[k]` on an absent key is `none`, the
  `nil` slice of the source.
-/

namespace WorldGen

/-! ## Randomness -/

/-- The two sources of nondeterminism of the generator: the draws of
`math/rand` and the choices of the runtime when a map is ranged over. -/
structure Oracle where
  rand : List Nat
  iter : List Nat
  deriving DecidableEq, Repr

/-- Go `rand.Intn(n)`: a value in `[0,n)`; panics when `n ≤ 0`. -/
def Intn (n : Nat) (o : Oracle) : Option (Nat × Oracle) :=
  if n = 0 then none
  else
    match o.rand with
    | [] => some (0, o)
    | r :: rs => some (r % n, { o with rand := rs })

/-- The closure handed to `rand.Shuffle` in `randomWithoutDuplicates`:
`itemsCopy[i], itemsCopy[j] = itemsCopy[j], itemsCopy[i]`; an index outside
the slice panics. -/
def swap (itemsCopy : List String) (i j : Nat) : Option (List String) :=
  match itemsCopy[j]?, itemsCopy[i]? with
  | some vj, some vi => some ((itemsCopy.set i vj).set j vi)
  | _, _ => none

/-- The loop of `rand.Shuffle` (Fisher–Yates):
`for ; i > 0; i-- { j := Intn(i+1); swap(i, j) }`. -/
def shuffleLoop : Nat → List String → Oracle → Option (List String × Oracle)
  | 0, xs, o => some (xs, o)
  | i + 1, xs, o => do
    let (j, o) ← Intn (i + 1 + 1) o
    let xs ← swap xs (i + 1) j
    shuffleLoop i xs o

/-- Go `rand.Shuffle(n, swap)` with `n = len(itemsCopy)`: the loop starts at
`i = n - 1`. -/
def Shuffle (itemsCopy : List String) (o : Oracle) : Option (List String × Oracle) :=
  shuffleLoop (itemsCopy.length - 1) itemsCopy o

/-- Go `randomWithoutDuplicates(items, count)`. -/
def randomWithoutDuplicates (items : List String) (count : Int) (o : Oracle) :
    Option (List String × Oracle) :=
  if count ≤ 0 then some ([], o)
  else do
    let itemsCopy := items
    let (itemsCopy, o) ← Shuffle itemsCopy o
    let count := if count > (itemsCopy.length : Int) then (itemsCopy.length : Int) else count
    some (itemsCopy.take count.toNat, o)

/-! ## Content tables -/

def climates : List String :=
  ["Arid", "Temperate", "Tropical", "Arctic", "Mediterranean",
   "Alpine", "Oceanic", "Continental", "Monsoonal", "Polar",
   "Desert", "Savanna", "Rainforest", "Tundra", "Humid Subtropical"]

def featuresByClimate : List (String × List String) :=
  [("Arid", ["Sand dunes", "Isolated oases", "Cracked earth", "Salt flats", "Dust storms", "Canyons", "Mesas", "Rock formations", "Stone arches", "Desert blooms"]),
   ("Temperate", ["Conifer forests", "Green fields", "Rolling hills", "Rain showers", "Wildflowers", "Deciduous forests", "Rivers", "Lakes", "Meadows", "Vales"]),
   ("Tropical", ["Dense forests", "Paradise islands", "Steamy jungles", "Monsoon storms", "Coral reefs", "Mangrove swamps", "Waterfalls", "Volcanic islands", "Pristine beaches", "Hidden caverns"]),
   ("Arctic", ["Ice fields", "Snow-covered mountains", "Glacial caves", "Aurora borealis", "Permafrost plains", "Ice floes", "Frozen waterfalls", "Snow drifts", "Frozen lakes", "Hot springs"]),
   ("Mediterranean", ["Vineyards", "Century-old olive trees", "Sun-drenched coasts", "Herb-scented breezes", "Terraced hillsides", "Rocky coves", "Azure waters", "Cypress trees", "Stone villages", "Coastal cliffs"]),
   ("Alpine", ["Rugged peaks", "Flower meadows", "Evergreen forests", "Mountain lakes", "Glacier streams", "Rock slides", "Mountain passes", "Fog banks", "Stone cabins", "Avalanche paths"]),
   ("Oceanic", ["Misty hillsides", "Green valleys", "Moss-covered stones", "Frequent showers", "Hedgerows", "Thatched cottages", "Windswept coasts", "Foggy mornings", "Peat bogs", "Heather fields"]),
   ("Continental", ["Great plains", "Rich farmland", "Seasonal forests", "Summer storms", "River networks", "Grasslands", "Four distinct seasons", "Flood plains", "Limestone caves", "Ponds"]),
   ("Monsoonal", ["Rice terraces", "Bamboo groves", "Seasonal flooding", "Dense fogs", "Orchid forests", "Tea plantations", "Stepped terrain", "Summer rains", "Mist-shrouded mountains", "Water gardens"]),
   ("Polar", ["Ice sheets", "Frozen seas", "Midnight sun", "Polar night", "Icebergs", "Frozen mountains", "Ice caves", "Snow plains", "Crystal forests", "Shimmering lights"]),
   ("Desert", ["Cacti forests", "Rock pillars", "Dry riverbeds", "Shifting sands", "Mirages", "Ancient meteorite craters", "Sand valleys", "Fossil beds", "Obsidian fields", "Hidden springs"]),
   ("Savanna", ["Tall grasses", "Acacia trees", "Seasonal wetlands", "Termite mounds", "Baobab trees", "Watering holes", "Red soil", "Flat-topped mountains", "Valley systems", "Seasonal burns"]),
   ("Rainforest", ["Emergent canopies", "Lianas", "Medicinal plants", "Mist curtains", "Forest floor", "Huge buttress roots", "Colorful birds", "Singing insects", "Epiphytic gardens", "Mossy banks"]),
   ("Tundra", ["Lichen fields", "Dwarf shrubs", "Caribou moss", "Shallow lakes", "Hardy flowers", "Ice wedge polygons", "Stone circles", "Peat mounds", "Meltwater streams", "Bare ridges"]),
   ("Humid Subtropical", ["Spanish moss", "Swamp cypress", "Brick-red soil", "Magnolia trees", "Summer thunderstorms", "Azalea gardens", "Year-round greenery", "Morning mist", "Firefly fields", "Warm lagoons"])]

def faunaByClimate : List (String × List (String × List String)) :=
  [("fantasy",
     [("Arid", ["Sand drakes", "Dust sprites", "Mirage phoenixes", "Heat salamanders", "Crystal scorpions"]),
      ("Temperate", ["Talking deer", "Sprite foxes", "Luminous rabbits", "Healing doves", "Enchanted wolves"]),
      ("Tropical", ["Rainbow serpents", "Jeweled macaws", "Glow frogs", "Giant butterflies", "Fae panthers"]),
      ("Arctic", ["Frost giants", "Ice wyverns", "Snow sphinxes", "Boreal phoenixes", "Glacial bears"]),
      ("Mediterranean", ["Oracle octopi", "Sea nymphs", "Sphinx lions", "Wine-loving fauns", "Sage owls"])]),
   ("sci-fi",
     [("Arid", ["Silicon-based crawlers", "Photosynthetic predators", "Sand-phase organisms", "Heat-energy beings", "Metal-eating insects"]),
      ("Temperate", ["Biomechanical deer", "Engineered canines", "Surveillance birds", "Camouflage symbiotes", "Pollen-collecting drones"]),
      ("Tropical", ["Genetically-enhanced primates", "Bio-luminescent birds", "Engineered amphibians", "Data-collecting insects", "Hyper-evolved felines"]),
      ("Arctic", ["Cryo-adapted lifeforms", "Thermal parasites", "Ice-boring worms", "Magnetic field sensors", "Thermophilic microbes"]),
      ("Mediterranean", ["Aquatic data collectors", "Water purifier organisms", "Coastal reconnaissance drones", "Energy-harvesting fish", "Terraforming coral"])]),
   ("post-apocalyptic",
     [("Arid", ["Radiation-resistant lizards", "Mutated scorpions", "Sand piranhas", "Toxic hornets", "Dust wolves"]),
      ("Temperate", ["Three-eyed deer", "Acid rain frogs", "Oversized insects", "Scavenger dogs", "Pack rats"]),
      ("Tropical", ["Toxic-resistant monkeys", "Vegetation-fused birds", "Poison dart frogs", "Giant mosquitoes", "Jungle stalkers"]),
      ("Arctic", ["White stalkers", "Frost wolves", "Cryo-adapted humans", "Radioactive polar bears", "Snow piercers"]),
      ("Mediterranean", ["Pollution-filtering fish", "Shoreline scavengers", "Mutated dolphins", "Plastic-eating crabs", "Acidic jellyfish"])])]

def floraByClimate : List (String × List (String × List String)) :=
  [("fantasy",
     [("Arid", ["Mirage blooms", "Phoenix feather cacti", "Singing sand lilies", "Time-slowing succulents", "Mana crystals"]),
      ("Temperate", ["Whispering willows", "Memory moss", "Fae light flowers", "Healing herbs", "Talking oak trees"]),
      ("Tropical", ["Dream fruit trees", "Waterfall orchids", "Sentient vines", "Rainbow palms", "Wish-granting flowers"]),
      ("Arctic", ["Frost lilies", "Eternal ice roses", "Northern light flowers", "Snow essence trees", "Crystal pines"]),
      ("Mediterranean", ["Oracle olives", "Fate-weaving vines", "Divine laurel", "Prophetic herbs", "Immortality figs"])]),
   ("sci-fi",
     [("Arid", ["Silicon flora", "Metal-absorbing cacti", "Bio-solar plants", "Data storage succulents", "Moisture harvesters"]),
      ("Temperate", ["Oxygen hyperproducers", "Bio-luminescent trees", "Communication fungi", "Medicine-producing flowers", "Weather-controlling plants"]),
      ("Tropical", ["Gene-altering fruits", "Bio-electronic vines", "Anti-gravity flowers", "Species-adapting trees", "Consciousness-expanding fungi"]),
      ("Arctic", ["Thermal generator plants", "Cryo-preserving lichens", "Ice-penetrating roots", "Bio-antifreeze producers", "Data-storing crystals"]),
      ("Mediterranean", ["Desalination trees", "Current-generating seaweed", "Bio-filter reeds", "Holographic flowers", "Atmospheric adjusters"])]),
   ("post-apocalyptic",
     [("Arid", ["Radiation-feeding cacti", "Metal-absorbing weeds", "Toxic spore producers", "Fallout-resistant shrubs", "Mutated yuccas"]),
      ("Temperate", ["Glowing fungi", "Acid-resistant trees", "Carnivorous wildflowers", "Mutation-causing berries", "Oxygen-hoarding plants"]),
      ("Tropical", ["Irradiated palms", "Rapidly-evolving vines", "Memory-altering fruit", "Hybrid fungi-animals", "Toxic paradise flowers"]),
      ("Arctic", ["Heat-stealing lichen", "Nuclear winter trees", "Frozen time capsule flowers", "Radiation-preserving ice plants", "Mutated evergreens"]),
      ("Mediterranean", ["Oil-filtering reeds", "Plastic-decomposing algae", "Contamination indicator flowers", "Salt-purifying trees", "Human-repelling herbs"])])]

def culturesByTheme : List (String × List String) :=
  [("fantasy", ["Ancient elven dynasties", "Dwarf mining guilds", "Nomadic halfling tribes", "Human kingdoms", "Dragonborn clans", "Magical academies", "Twilight courts", "Oracle temples", "Beast-people tribes", "Elemental communes"]),
   ("sci-fi", ["Space mining corporations", "AI collectives", "Human resistance", "Genetic purists", "Cyborg syndicates", "Terraforming guilds", "Quantum researchers", "Alien embassies", "Data monks", "Void explorers"]),
   ("post-apocalyptic", ["Bunker dwellers", "Wasteland raiders", "Water barons", "Tech salvagers", "Radiation cultists", "Agricultural communes", "Trading caravans", "Stronghold cities", "Nomad tribes", "Memory keepers"])]

def dangersByTheme : List (String × List (String × List String)) :=
  [("fantasy",
     [("Arid", ["Ancient buried curses", "Sandstorm elementals", "Mirage demons", "Sun dragons", "Heat madness"]),
      ("Temperate", ["Forest guardians", "Fae tricksters", "Cursed ruins", "Shapeshifting predators", "Living storms"]),
      ("Tropical", ["Jungle spirits", "Carnivorous plants", "Temple guardians", "Venom sprites", "Quicksand portals"]),
      ("Arctic", ["Frost giants", "Avalanche spirits", "Ice curses", "Soul-freezing winds", "Hunger madness"]),
      ("Mediterranean", ["Sirens", "Ancient sea monsters", "Cursed islands", "Wine enchantments", "Memory thieves"])]),
   ("sci-fi",
     [("Arid", ["Rogue terraforming machines", "Sand-based nanobots", "Heat-activated mines", "Mirage defense systems", "Water thieves"]),
      ("Temperate", ["Surveillance ecosystems", "Rogue bioweapons", "Perception filters", "Reality distortion fields", "Neural parasites"]),
      ("Tropical", ["Gene-altering pollens", "Predatory plants", "Machine-jungle hybrids", "Bio-electronic hazards", "Memory-altering spores"]),
      ("Arctic", ["Cryo-weapons", "Consciousness-stealing ice", "Sub-zero nanites", "White-out zones", "Thermal anomalies"]),
      ("Mediterranean", ["Water-borne data viruses", "Mind-controlling parasites", "Coastal defense systems", "Weather control malfunctions", "Reality bubbles"])]),
   ("post-apocalyptic",
     [("Arid", ["Radiation zones", "Dust storms", "Cannibalistic tribes", "Ancient weapon caches", "Nuclear mirages"]),
      ("Temperate", ["Toxic rain", "Mutated predators", "Bandit territories", "Collapsing infrastructure", "Disease zones"]),
      ("Tropical", ["Poisoned water", "Predatory plant life", "Feral survivor camps", "Quicksand pits", "Hallucinogenic spores"]),
      ("Arctic", ["Deadly blizzards", "Starvation", "Ice pirates", "Underground radiation", "Freezing fog"]),
      ("Mediterranean", ["Coastal raiders", "Polluted seas", "Resource wars", "Flooded ruins", "Water-borne diseases"])])]

def languagesByTheme : List (String × List String) :=
  [("fantasy", ["Ancient Elvish", "Dwarven Runes", "Common Tongue", "Sylvan Whispers", "Draconic", "Abyssal", "Celestial", "Primordial", "Fae Speech", "Gnomish"]),
   ("sci-fi", ["Galactic Standard", "Binary Code", "Quantum Script", "Neural Interface", "Alien Dialects", "Mathematical Patterns", "Light Pulses", "Sonic Patterns", "Encoded Transmissions", "Temporal Linguistics"]),
   ("post-apocalyptic", ["Wasteland Slang", "Old World English", "Trade Pidgin", "Signal Code", "Radiation Clicks", "Bunker Dialect", "Survivor's Cant", "Scavenger Signs", "Tech-Speech", "Brotherhood Code"])]

/-! ## Maps and formatting -/

/-- Indexing a two-level map, `m[theme][climate]`: indexing the `nil` inner
map of an absent theme yields the `nil` slice. -/
def index2 (m : List (String × List (String × List String))) (theme climate : String) :
    Option (List String) :=
  ((m.lookup theme).getD []).lookup climate

/-- The loop `for _, f := range m { x = f; break }` run on a variable that
is `nil`: the variable receives the value of the entry the runtime visits
first, and stays `nil` when the map is empty. -/
def rangeFirst (m : List (String × List String)) (o : Oracle) :
    Option (List String) × Oracle :=
  match m with
  | [] => (none, o)
  | e :: es =>
    match o.iter with
    | [] => (some e.2, o)
    | k :: ks => (((e :: es)[k % (e :: es).length]?).map Prod.snd, { o with iter := ks })

/-- An operand of `fmt.Sprintf`. -/
inductive Arg where
  | str (s : String)
  | int (n : Int)
  deriving DecidableEq, Repr

/-- How `fmt` prints an operand under the verb `v`: `%s` and `%v` print a
string as it is, `%d` and `%v` print an integer in decimal; a verb that does
not fit the operand prints `%!verb(type=value)`. -/
def Arg.format (v : Char) : Arg → String
  | .str s => if v = 's' ∨ v = 'v' then s else "%!" ++ v.toString ++ "(string=" ++ s ++ ")"
  | .int n => if v = 'd' ∨ v = 'v' then toString n else "%!" ++ v.toString ++ "(int=" ++ toString n ++ ")"

/-- An operand as listed in the `%!(EXTRA ...)` suffix. -/
def Arg.typed : Arg → String
  | .str s => "string=" ++ s
  | .int n => "int=" ++ toString n

/-- The text `fmt` appends for operands that no verb consumed. -/
def extraArgs : List Arg → String
  | [] => ""
  | args => "%!(EXTRA " ++ ", ".intercalate (args.map Arg.typed) ++ ")"

/-- The scan of `fmt.Sprintf` over the format, for formats whose verbs carry
no flags, width or precision (all formats of this program): `%%` prints a
percent sign, a verb consumes the next operand, a verb with no operand left
prints `%!verb(MISSING)`, a trailing `%` prints `%!(NOVERB)`, and operands
left over at the end are reported by `extraArgs`. -/
def sprintfAux : List Char → List Arg → String
  | [], args => extraArgs args
  | '%' :: [], args => "%!(NOVERB)" ++ extraArgs args
  | '%' :: '%' :: rest, args => "%" ++ sprintfAux rest args
  | '%' :: v :: rest, [] => "%!" ++ v.toString ++ "(MISSING)" ++ sprintfAux rest []
  | '%' :: v :: rest, a :: args => a.format v ++ sprintfAux rest args
  | c :: rest, args => c.toString ++ sprintfAux rest args

/-- Go `fmt.Sprintf(format, args...)`. -/
def Sprintf (format : String) (args : List Arg) : String :=
  sprintfAux format.data args

/-- The number of verbs of a format that consume an operand. -/
def countVerbs : List Char → Nat
  | [] => 0
  | '%' :: [] => 0
  | '%' :: '%' :: rest => countVerbs rest
  | '%' :: _ :: rest => 1 + countVerbs rest
  | _ :: rest => countVerbs rest

/-! ## The model -/

/-- Go `models.World`.  A `nil` slice is the empty list; `CreatedAt` is a
number of ticks, `0` being the zero `time.Time`. -/
structure World where
  ID : Int
  Name : String
  Description : String
  Population : Int
  Climate : String
  Features : List String
  Theme : String
  CreatedAt : Nat
  Fauna : List String
  Flora : List String
  Cultures : List String
  Dangers : List String
  Languages : List String
  deriving DecidableEq, Repr

/-! ## The generator -/

def validateTheme (theme : String) : Bool :=
  let validThemes := ["fantasy", "sci-fi", "post-apocalyptic"]
  validThemes.any fun validTheme => theme == validTheme

def namePrefixes : List (String × List String) :=
  [("fantasy", ["Aure", "Eld", "Myth", "Zan", "Thaur", "Crystal", "Ever", "Fel", "Glimmer", "Iron"]),
   ("sci-fi", ["Xen", "Nova", "Qar", "Zy", "Eco", "Neb", "Sol", "Astra", "Orb", "Pulse"]),
   ("post-apocalyptic", ["Ruina", "Ash", "Hollow", "Grim", "Waste", "Dead", "Lost", "Broken", "Rust", "Shadow"])]

def nameSuffixes : List (String × List String) :=
  [("fantasy", ["ia", "or", "an", "eth", "haven", "wood", "vale", "gard", "heart", "realm"]),
   ("sci-fi", ["-Prime", "-X", "-7", "-II", "-Nova", "-Core", "-Nexus", "-Sphere", "-Alpha", "-Zero"]),
   ("post-apocalyptic", ["fall", "land", "vale", "berg", "waste", "ruins", "haven", "outpost", "refuge", "pit"])]

/-- Go `randomName(theme)`; `prefixes` and `suffixes` are the two map literals of
the function.  When `pre` is `nil` both slices are replaced; otherwise `suf`
is `suffixes[theme]`, of length 0 when that entry is absent. -/
def randomName (theme : String) (o : Oracle) : Option (String × Oracle) := do
  let (pre, suf) :=
    match namePrefixes.lookup theme with
    | none => ((namePrefixes.lookup "fantasy").getD [], (nameSuffixes.lookup "fantasy").getD [])
    | some pre => (pre, (nameSuffixes.lookup theme).getD [])
  let (i, o) ← Intn pre.length o
  let p ← pre[i]?
  let (j, o) ← Intn suf.length o
  let s ← suf[j]?
  some (Sprintf "%s%s" [.str p, .str s], o)

def templates : List String :=
  ["In this %s-themed world, the %s climate fosters %s and %s. %s roam among the %s.",
   "A world with %s climate, where %s and %s abound. Home to %s and magnificent %s.",
   "This %s world is defined by its %s climate and %s alongside %s. Travelers may encounter %s near the %s.",
   "Explore a %s realm under %s skies, with %s and %s. Beware of %s hiding within the %s."]

/-- Go `generateDescription(theme, climate, features, fauna, flora)`. -/
def generateDescription (theme climate : String) (features fauna flora : List String)
    (o : Oracle) : Option (String × Oracle) := do
  let f1 ← features[0]?
  let f2 ← features[1]?
  let animal := if fauna.length > 0 then fauna.headD "" else ""
  let plant := if flora.length > 0 then flora.headD "" else ""
  let (k, o) ← Intn templates.length o
  let tmpl ← templates[k]?
  some (Sprintf tmpl [.str theme, .str climate, .str f1, .str f2, .str animal, .str plant], o)

def randomClimate (o : Oracle) : Option (String × Oracle) := do
  let (k, o) ← Intn climates.length o
  let c ← climates[k]?
  some (c, o)

def randomFeatures (climate : String) (o : Oracle) : Option (List String × Oracle) := do
  let feats :=
    match featuresByClimate.lookup climate with
    | none => featuresByClimate.lookup "Temperate"
    | some feats => some feats
  let (n, o) ← Intn 3 o
  let count : Int := 2 + n
  randomWithoutDuplicates (feats.getD []) count o

/-- The fallback chain that `randomFauna`, `randomFlora` and `randomDangers`
run on their table before they draw (the three functions differ in the table
only): the exact entry `table[theme][climate]`, else the entry of
`table[theme]` that the map iteration visits first, else
`table["fantasy"]["Temperate"]`. -/
def fallbackSource (table : List (String × List (String × List String)))
    (climate theme : String) (o : Oracle) : Option (List String) × Oracle :=
  match index2 table theme climate with
  | some src => (some src, o)
  | none =>
    match rangeFirst ((table.lookup theme).getD []) o with
    | (some src, o) => (some src, o)
    | (none, o) => (index2 table "fantasy" "Temperate", o)

def randomFauna (climate theme : String) (o : Oracle) : Option (List String × Oracle) := do
  let (fauna, o) := fallbackSource faunaByClimate climate theme o
  let (n, o) ← Intn 3 o
  let count : Int := 2 + n
  randomWithoutDuplicates (fauna.getD []) count o

def randomFlora (climate theme : String) (o : Oracle) : Option (List String × Oracle) := do
  let (flora, o) := fallbackSource floraByClimate climate theme o
  let (n, o) ← Intn 3 o
  let count : Int := 2 + n
  randomWithoutDuplicates (flora.getD []) count o

def randomCultures (theme : String) (o : Oracle) : Option (List String × Oracle) := do
  let cultures :=
    match culturesByTheme.lookup theme with
    | none => culturesByTheme.lookup "fantasy"
    | some cultures => some cultures
  let (n, o) ← Intn 3 o
  let count : Int := 1 + n
  randomWithoutDuplicates (cultures.getD []) count o

def randomDangers (climate theme : String) (o : Oracle) : Option (List String × Oracle) := do
  let (dangers, o) := fallbackSource dangersByTheme climate theme o
  let (n, o) ← Intn 2 o
  let count : Int := 1 + n
  randomWithoutDuplicates (dangers.getD []) count o

def randomLanguages (theme : String) (o : Oracle) : Option (List String × Oracle) := do
  let langs :=
    match languagesByTheme.lookup theme with
    | none => languagesByTheme.lookup "fantasy"
    | some langs => some langs
  let (n, o) ← Intn 3 o
  let count : Int := 1 + n
  randomWithoutDuplicates (langs.getD []) count o

/-! ## Stores

PostgreSQL and Redis are external; their state is made explicit.  Every call
to a store first consumes one entry of the store's `faults`, the outcome the
environment chooses for that call: a call that faults returns an error and
leaves the store as it was.  An exhausted list means no further fault. -/

/-- A Go `error`, as far as the program tells errors apart: the sentinel
`pgx.ErrNoRows`, an error made by `fmt.Errorf`, and any other error a store
call returns. -/
inductive Error where
  | ErrNoRows
  | Errorf (msg : String)
  | driver (msg : String)
  deriving DecidableEq, Repr

set_option linter.dupNamespace false in
/-- The method `err.Error()`. -/
def Error.Error : Error → String
  | .ErrNoRows => "no rows in result set"
  | .Errorf msg => msg
  | .driver msg => msg

/-- A row of the relation
`worlds(id, name, description, population, climate, features, theme, created_at)`. -/
structure Row where
  id : Int
  name : String
  description : String
  population : Int
  climate : String
  features : List String
  theme : String
  created_at : Nat
  deriving DecidableEq, Repr

/-- The database behind `dbConfig.DB`: the rows of `worlds`, the next value
of the `id` sequence, the time the database stamps on a new row, and the
outcomes of the calls to come. -/
structure PgPool where
  rows : List Row
  nextID : Int
  clock : Nat
  faults : List (Option String)
  deriving DecidableEq, Repr

/-- The outcome the environment chooses for the next database call. -/
def PgPool.fault (db : PgPool) : Option String × PgPool :=
  match db.faults with
  | [] => (none, db)
  | f :: fs => (f, { db with faults := fs })

/-- The statement `INSERT INTO worlds(name, description, population, climate, features, theme)
VALUES($1,$2,$3,$4,$5,$6) RETURNING id`, scanned into `id`. -/
def PgPool.insertWorld (db : PgPool) (w : World) : Except Error Int × PgPool :=
  match db.fault with
  | (some msg, db) => (.error (.driver msg), db)
  | (none, db) =>
    let row : Row :=
      { id := db.nextID, name := w.Name, description := w.Description,
        population := w.Population, climate := w.Climate, features := w.Features,
        theme := w.Theme, created_at := db.clock }
    (.ok db.nextID, { db with rows := db.rows ++ [row], nextID := db.nextID + 1 })

/-- The statement `SELECT id, name, description, population, climate, features, theme, created_at
FROM worlds WHERE id = $1`, scanned into a row; `pgx.ErrNoRows` when no row
has that id. -/
def PgPool.selectWorld (db : PgPool) (id : Int) : Except Error Row × PgPool :=
  match db.fault with
  | (some msg, db) => (.error (.driver msg), db)
  | (none, db) =>
    match db.rows.find? (fun r => r.id == id) with
    | some r => (.ok r, db)
    | none => (.error .ErrNoRows, db)

/-- The elements of a Redis list between the indices `start` and `stop`,
both inclusive, a negative index counting from the end of the list: the
index arithmetic shared by `LTRIM` and `LRANGE`. -/
def redisRange {σ : Type} (l : List σ) (start stop : Int) : List σ :=
  let llen : Int := l.length
  let start := if start < 0 then llen + start else start
  let stop := if stop < 0 then llen + stop else stop
  let start := if start < 0 then 0 else start
  if start > stop ∨ start ≥ llen then []
  else
    let stop := if stop ≥ llen then llen - 1 else stop
    (l.drop start.toNat).take (stop - start + 1).toNat

/-- The Redis server behind `dbConfig.RedisClient`, restricted to the
string keys (`world:<id>`) and the list keys (`world-history`) of the
service, which never coincide; `σ` is the type of a serialized payload. -/
structure Redis (σ : Type) where
  strings : String → Option σ
  lists : String → List σ
  faults : List Bool

/-- The outcome the environment chooses for the next Redis call. -/
def Redis.fault {σ : Type} (r : Redis σ) : Bool × Redis σ :=
  match r.faults with
  | [] => (false, r)
  | f :: fs => (f, { r with faults := fs })

/-- Redis `LPUSH key v`: insertion at the head of the list. -/
def Redis.LPush {σ : Type} (r : Redis σ) (key : String) (v : σ) : Redis σ :=
  match r.fault with
  | (true, r) => r
  | (false, r) => { r with lists := Function.update r.lists key (v :: r.lists key) }

/-- Redis `LTRIM key start stop`: the list keeps the elements of that range. -/
def Redis.LTrim {σ : Type} (r : Redis σ) (key : String) (start stop : Int) : Redis σ :=
  match r.fault with
  | (true, r) => r
  | (false, r) => { r with lists := Function.update r.lists key (redisRange (r.lists key) start stop) }

/-- Redis `LRANGE key start stop`, with its `Result()`. -/
def Redis.LRange {σ : Type} (r : Redis σ) (key : String) (start stop : Int) :
    Except Error (List σ) × Redis σ :=
  match r.fault with
  | (true, r) => (.error (.driver "redis"), r)
  | (false, r) => (.ok (redisRange (r.lists key) start stop), r)

/-- Redis `SET key v` with expiration `0` (the key never expires). -/
def Redis.Set {σ : Type} (r : Redis σ) (key : String) (v : σ) : Redis σ :=
  match r.fault with
  | (true, r) => r
  | (false, r) => { r with strings := Function.update r.strings key (some v) }

/-- Redis `GET key`, with its `Result()`: an absent key is the error `redis.Nil`. -/
def Redis.Get {σ : Type} (r : Redis σ) (key : String) : Except Error σ × Redis σ :=
  match r.fault with
  | (true, r) => (.error (.driver "redis"), r)
  | (false, r) =>
    match r.strings key with
    | some v => (.ok v, r)
    | none => (.error (.driver "redis: nil"), r)

/-- Go `encoding/json` on a `World`: `Marshal` and `Unmarshal` are parameters of
the embedding. -/
structure Codec (σ : Type) where
  Marshal : World → Option σ
  Unmarshal : σ → Option World

/-- Go `config.AppConfig`. -/
structure AppConfig where
  RateLimit : Int
  RateWindow : Int
  HistoryLimit : Int
  deriving DecidableEq, Repr

/-- Go `config.DatabaseConfig`: a field is `none` when the Go pointer is `nil`. -/
structure DatabaseConfig (σ : Type) where
  DB : Option PgPool
  RedisClient : Option (Redis σ)

/-! ## The service -/

/-- Go `saveWorldToDB`: on success the id the database returned is stored in
`w.ID`. -/
def saveWorldToDB (db : PgPool) (w : World) : World × Option Error × PgPool :=
  match db.insertWorld w with
  | (.error err, db) => (w, some err, db)
  | (.ok id, db) => ({ w with ID := id }, none, db)

/-- Go `cacheWorld`, called with a client that is not `nil`. -/
def cacheWorld {σ : Type} (J : Codec σ) (appConfig : AppConfig) (r : Redis σ) (w : World) :
    Redis σ :=
  let historyKey := "world-history"
  match J.Marshal w with
  | none => r
  | some worldJSON =>
    let r := r.LPush historyKey worldJSON
    let r := r.LTrim historyKey 0 (appConfig.HistoryLimit - 1)
    if w.ID > 0 then
      let worldKey := Sprintf "world:%d" [.int w.ID]
      r.Set worldKey worldJSON
    else r

/-- The part of `WorldService.GenerateWorld` that builds the world (the
statements up to and including the composite literal `&models.World{...}`, the
theme being already normalized); the `Name`, `Description` and `Population`
operands are evaluated in this order. -/
def buildWorld (theme : String) (o : Oracle) : Option (World × Oracle) := do
  let (climate, o) ← randomClimate o
  let (features, o) ← randomFeatures climate o
  let (fauna, o) ← randomFauna climate theme o
  let (flora, o) ← randomFlora climate theme o
  let (cultures, o) ← randomCultures theme o
  let (dangers, o) ← randomDangers climate theme o
  let (languages, o) ← randomLanguages theme o
  let (name, o) ← randomName theme o
  let (description, o) ← generateDescription theme climate features fauna flora o
  let (population, o) ← Intn 10000000 o
  some ({ ID := 0, Name := name, Description := description, Population := population,
          Climate := climate, Features := features, Theme := theme, CreatedAt := 0,
          Fauna := fauna, Flora := flora, Cultures := cultures, Dangers := dangers,
          Languages := languages }, o)

/-- Go `WorldService.GenerateWorld`: the world and the error it returns, the
stores and the oracle after the call; `none` is a panic. -/
def GenerateWorld {σ : Type} (J : Codec σ) (appConfig : AppConfig) (dbConfig : DatabaseConfig σ)
    (theme : String) (o : Oracle) :
    Option ((World × Option Error) × DatabaseConfig σ × Oracle) := do
  let theme := if theme = "" then "fantasy" else theme
  let theme := if !validateTheme theme then "fantasy" else theme
  let (w, o) ← buildWorld theme o
  let (w, db) :=
    match dbConfig.DB with
    | some db =>
      match saveWorldToDB db w with
      | (w, _, db) => (w, some db)
    | none => (w, none)
  let redis :=
    match dbConfig.RedisClient with
    | some r => some (cacheWorld J appConfig r w)
    | none => none
  some ((w, none), { DB := db, RedisClient := redis }, o)

/-- The world a row is scanned into by `GetWorldByID`: the eight columns,
the other fields keeping their zero value. -/
def Row.toWorld (r : Row) : World :=
  { ID := r.id, Name := r.name, Description := r.description, Population := r.population,
    Climate := r.climate, Features := r.features, Theme := r.theme, CreatedAt := r.created_at,
    Fauna := [], Flora := [], Cultures := [], Dangers := [], Languages := [] }

/-- Go `WorldService.GetWorldByID`. -/
def GetWorldByID {σ : Type} (J : Codec σ) (appConfig : AppConfig) (dbConfig : DatabaseConfig σ)
    (id : Int) : Except Error World × DatabaseConfig σ :=
  let (hit, redis) : Option World × Option (Redis σ) :=
    match dbConfig.RedisClient with
    | some r =>
      let worldKey := Sprintf "world:%d" [.int id]
      match r.Get worldKey with
      | (.ok worldJSON, r) => (J.Unmarshal worldJSON, some r)
      | (.error _, r) => (none, some r)
    | none => (none, none)
  match hit with
  | some world => (.ok world, { DB := dbConfig.DB, RedisClient := redis })
  | none =>
    match dbConfig.DB with
    | some db =>
      match db.selectWorld id with
      | (.ok row, db) =>
        let world := row.toWorld
        let redis :=
          match redis with
          | some r => some (cacheWorld J appConfig r world)
          | none => none
        (.ok world, { DB := some db, RedisClient := redis })
      | (.error .ErrNoRows, db) =>
        (.error (.Errorf (Sprintf "world with ID %d not found" [.int id])),
          { DB := some db, RedisClient := redis })
      | (.error err, db) => (.error err, { DB := some db, RedisClient := redis })
    | none =>
      (.error (.Errorf "no database connection available"), { DB := none, RedisClient := redis })

/-- Go `WorldService.GetWorldHistory`: entries that fail to decode are skipped. -/
def GetWorldHistory {σ : Type} (J : Codec σ) (dbConfig : DatabaseConfig σ) :
    Except Error (List World) × DatabaseConfig σ :=
  match dbConfig.RedisClient with
  | none => (.ok [], dbConfig)
  | some r =>
    let historyKey := "world-history"
    match r.LRange historyKey 0 (-1) with
    | (.error err, r) => (.error err, { dbConfig with RedisClient := some r })
    | (.ok worldsJSON, r) =>
      (.ok (worldsJSON.filterMap J.Unmarshal), { dbConfig with RedisClient := some r })

/-! ## The controller -/

/-- Go `strconv.Atoi`: an optional sign followed by one or more decimal digits,
the value fitting in 64 bits. -/
def Atoi (s : String) : Option Int :=
  let (neg, ds) : Bool × List Char :=
    match s.data with
    | '+' :: ds => (false, ds)
    | '-' :: ds => (true, ds)
    | ds => (false, ds)
  if ds.isEmpty then none
  else if ds.all Char.isDigit then
    let n : Nat := ds.foldl (fun a c => 10 * a + (c.toNat - '0'.toNat)) 0
    let v : Int := if neg then -(n : Int) else n
    if v < -9223372036854775808 ∨ v > 9223372036854775807 then none else some v
  else none

def parseID (idParam : String) : Option Int :=
  Atoi idParam

/-- The body of a JSON response: a world, or the map with the one key
`"error"`. -/
inductive Body where
  | world (w : World)
  | error (msg : String)
  deriving DecidableEq, Repr

/-- What `ctx.JSON(status, body)` sends. -/
structure Response where
  status : Nat
  body : Body
  deriving DecidableEq, Repr

def StatusOK : Nat := 200
def StatusBadRequest : Nat := 400
def StatusNotFound : Nat := 404
def StatusInternalServerError : Nat := 500

/-- Go `WorldController.GetWorldByID`, on the path parameter `id`. -/
def WorldController.GetWorldByID {σ : Type} (J : Codec σ) (appConfig : AppConfig)
    (dbConfig : DatabaseConfig σ) (idParam : String) : Response × DatabaseConfig σ :=
  match parseID idParam with
  | none => ({ status := StatusBadRequest, body := .error "Invalid world ID" }, dbConfig)
  | some id =>
    match WorldGen.GetWorldByID J appConfig dbConfig id with
    | (.error err, dbConfig) =>
      let status :=
        if err.Error = "world not found" then StatusNotFound else StatusInternalServerError
      ({ status := status, body := .error err.Error }, dbConfig)
    | (.ok world, dbConfig) => ({ status := StatusOK, body := .world world }, dbConfig)

/-! ## Predicates and runs used in the statements -/

/-- A source list long enough for every draw (at most four entries are
drawn) and free of duplicates. -/
def SrcOK (l : List String) : Prop := 4 ≤ l.length ∧ l.Nodup

instance (l : List String) : Decidable (SrcOK l) := by
  unfold SrcOK
  infer_instance

/-- The statement shared by the six category draws: the call returns a
list of `lo` to `hi` distinct entries. -/
def DrawOK (r : Option (List String × Oracle)) (lo hi : Nat) : Prop :=
  ∃ ys o', r = some (ys, o') ∧ lo ≤ ys.length ∧ ys.length ≤ hi ∧ ys.Nodup

/-- The bounds and the absence of duplicates of the six category sequences
of a world. -/
structure World.WellFormed (w : World) : Prop where
  features_len : 2 ≤ w.Features.length ∧ w.Features.length ≤ 4
  fauna_len : 2 ≤ w.Fauna.length ∧ w.Fauna.length ≤ 4
  flora_len : 2 ≤ w.Flora.length ∧ w.Flora.length ≤ 4
  cultures_len : 1 ≤ w.Cultures.length ∧ w.Cultures.length ≤ 3
  dangers_len : 1 ≤ w.Dangers.length ∧ w.Dangers.length ≤ 2
  languages_len : 1 ≤ w.Languages.length ∧ w.Languages.length ≤ 3
  features_nodup : w.Features.Nodup
  fauna_nodup : w.Fauna.Nodup
  flora_nodup : w.Flora.Nodup
  cultures_nodup : w.Cultures.Nodup
  dangers_nodup : w.Dangers.Nodup
  languages_nodup : w.Languages.Nodup

/-- The theme `GenerateWorld` works with: the two tests at its head. -/
def normalizedTheme (theme : String) : String :=
  if !validateTheme (if theme = "" then "fantasy" else theme) then "fantasy"
  else (if theme = "" then "fantasy" else theme)

/-- A Redis server none of whose coming calls faults. -/
def Redis.NoFault {σ : Type} (r : Redis σ) : Prop :=
  ∀ b ∈ r.faults, b = false

/-- The list stored under `"world-history"`; empty without a cache. -/
def history {σ : Type} (dbConfig : DatabaseConfig σ) : List σ :=
  match dbConfig.RedisClient with
  | some r => r.lists "world-history"
  | none => []

/-- Successive calls of `GenerateWorld`, one per theme of the list, each on
the stores and the oracle the previous call left; the worlds returned, in the
order of the calls. -/
def generateAll {σ : Type} (J : Codec σ) (appConfig : AppConfig) :
    List String → DatabaseConfig σ → Oracle → Option (List World × DatabaseConfig σ × Oracle)
  | [], dbConfig, o => some ([], dbConfig, o)
  | theme :: themes, dbConfig, o => do
    let r ← GenerateWorld J appConfig dbConfig theme o
    let rs ← generateAll J appConfig themes r.2.1 r.2.2
    some (r.1.1 :: rs.1, rs.2)

/-- A codec whose payload is the world itself. -/
def idCodec : Codec World :=
  { Marshal := some, Unmarshal := some }

/-- A live Redis server holding nothing, no call of which faults. -/
def emptyRedis : Redis World :=
  { strings := fun _ => none, lists := fun _ => [], faults := [] }

/-- A live database with no row. -/
def emptyDB : PgPool :=
  { rows := [], nextID := 1, clock := 0, faults := [] }

/-- A live database whose only row has the id 7. -/
def oneRowDB : PgPool :=
  { rows := [{ id := 7, name := "Aureia", description := "", population := 42,
               climate := "Arid", features := ["Canyons", "Mesas"], theme := "fantasy",
               created_at := 3 }],
    nextID := 8, clock := 5, faults := [] }

/-- A database none of whose coming calls faults. -/
def PgPool.NoFault (db : PgPool) : Prop :=
  ∀ f ∈ db.faults, f = none

/-- A live database with no row whose next call fails with a driver error. -/
def refusingDB : PgPool :=
  { rows := [], nextID := 1, clock := 0,
    faults := [some "dial tcp 10.0.0.5:5432: connect: connection refused"] }

/-! ## Search -/

/-- A statement sent to the database, with the arguments bound to its
positional parameters. -/
structure Statement where
  sql : String
  args : List Arg
  deriving DecidableEq, Repr

/-- The database as `SearchWorlds` sees it: what it answers to a statement
run by `QueryRow(...).Scan(&total)` and to one run by `Query(...)`, where each
row either scans or fails to scan. -/
structure SqlServer where
  QueryRow : Statement → Except Error Int
  Query : Statement → Except Error (List (Except Error Row))

/-- Go `fmt.Sprint` on one integer. -/
def Sprint (n : Int) : String :=
  toString n

/-- The part of `WorldService.SearchWorlds` that composes the count
statement and the page statement (from the default of `limit` to the
`append` of `limit` and `offset`); the count statement carries the arguments
gathered before that `append`. -/
def searchStatements (query theme climate : String) (limit offset : Int) :
    Statement × Statement :=
  let limit := if limit ≤ 0 then 10 else limit
  let baseQuery :=
    "SELECT id, name, description, population, climate, features, theme, created_at \n\t\t\t\t FROM worlds WHERE 1=1"
  let countQuery := "SELECT COUNT(*) FROM worlds WHERE 1=1"
  let args : List Arg := []
  let argPos : Int := 1
  let (baseQuery, countQuery, args, argPos) :=
    if query ≠ "" then
      let whereClause :=
        Sprintf " AND (name ILIKE $%d OR description ILIKE $%d)" [.int argPos, .int argPos]
      (baseQuery ++ whereClause, countQuery ++ whereClause,
        args ++ [.str ("%" ++ query ++ "%")], argPos + 1)
    else (baseQuery, countQuery, args, argPos)
  let (baseQuery, countQuery, args, argPos) :=
    if theme ≠ "" then
      let whereClause := Sprintf " AND theme = $%d" [.int argPos]
      (baseQuery ++ whereClause, countQuery ++ whereClause, args ++ [.str theme], argPos + 1)
    else (baseQuery, countQuery, args, argPos)
  let (baseQuery, countQuery, args, argPos) :=
    if climate ≠ "" then
      let whereClause := Sprintf " AND climate = $%d" [.int argPos]
      (baseQuery ++ whereClause, countQuery ++ whereClause, args ++ [.str climate], argPos + 1)
    else (baseQuery, countQuery, args, argPos)
  let countStatement : Statement := { sql := countQuery, args := args }
  let selectQuery :=
    baseQuery ++ " ORDER BY created_at DESC LIMIT $" ++ Sprint argPos ++ " OFFSET $" ++
      Sprint (argPos + 1)
  let args := args ++ [.int limit, .int offset]
  (countStatement, { sql := selectQuery, args := args })

/-- Go `WorldService.SearchWorlds`: its result and the statements it ran, in
order; rows that fail to scan are skipped. -/
def SearchWorlds (DB : Option SqlServer) (query theme climate : String) (limit offset : Int) :
    Except Error (List World × Int) × List Statement :=
  match DB with
  | none => (.error (.Errorf "no database connection available"), [])
  | some db =>
    let (countStatement, selectStatement) := searchStatements query theme climate limit offset
    match db.QueryRow countStatement with
    | .error err => (.error err, [countStatement])
    | .ok total =>
      match db.Query selectStatement with
      | .error err => (.error err, [countStatement, selectStatement])
      | .ok rows =>
        let worlds := rows.filterMap fun r =>
          match r with
          | .ok row => some row.toWorld
          | .error _ => none
        (.ok (worlds, total), [countStatement, selectStatement])

/-- The integer a string denotes in decimal, whatever its size: an optional
sign followed by one or more decimal digits. -/
def decimalValue (s : String) : Option Int :=
  let (neg, ds) : Bool × List Char :=
    match s.data with
    | '+' :: ds => (false, ds)
    | '-' :: ds => (true, ds)
    | ds => (false, ds)
  if ds.isEmpty then none
  else if ds.all Char.isDigit then
    let n : Nat := ds.foldl (fun a c => 10 * a + (c.toNat - '0'.toNat)) 0
    some (if neg then -(n : Int) else n)
  else none

/-- Go `parseLimitParam`. -/
def parseLimitParam (limitStr : String) : Int :=
  let defaultLimit : Int := 10
  let maxLimit : Int := 100
  if limitStr = "" then defaultLimit
  else
    match Atoi limitStr with
    | none => defaultLimit
    | some limit =>
      if limit ≤ 0 then defaultLimit
      else if limit > maxLimit then maxLimit
      else limit

/-- Go `parseOffsetParam`. -/
def parseOffsetParam (offsetStr : String) : Int :=
  if offsetStr = "" then 0
  else
    match Atoi offsetStr with
    | none => 0
    | some offset => if offset < 0 then 0 else offset

/-- Go `models.PaginatedWorldsResponse`. -/
structure PaginatedWorldsResponse where
  Data : List World
  Total : Int
  Limit : Int
  Offset : Int
  deriving DecidableEq, Repr

/-- The body of an answer of the search endpoint. -/
inductive SearchBody where
  | page (p : PaginatedWorldsResponse)
  | error (msg : String)
  deriving DecidableEq, Repr

/-- Go `WorldController.SearchWorlds` on the five query parameters: the
status and the body it sends, and the statements the service ran. -/
def WorldController.SearchWorlds (DB : Option SqlServer)
    (query theme climate limitParam offsetParam : String) :
    (Nat × SearchBody) × List Statement :=
  let limit := parseLimitParam limitParam
  let offset := parseOffsetParam offsetParam
  match WorldGen.SearchWorlds DB query theme climate limit offset with
  | (.error _, ran) => ((StatusInternalServerError, .error "Failed to search worlds"), ran)
  | (.ok (worlds, total), ran) =>
    ((StatusOK, .page { Data := worlds, Limit := limit, Offset := offset, Total := total }), ran)

/-- The indices of the positional parameters `$n` of a statement, in the
order in which they occur. -/
def placeholders : List Char → List Nat
  | [] => []
  | '$' :: rest =>
    let ds := rest.takeWhile Char.isDigit
    if ds.isEmpty then placeholders rest
    else ds.foldl (fun a c => 10 * a + (c.toNat - '0'.toNat)) 0 :: placeholders rest
  | _ :: rest => placeholders rest

/-- The arguments the filters contribute, in the order query, theme,
climate, an empty filter contributing none; the query is wrapped in `%`. -/
def filterArgs (query theme climate : String) : List Arg :=
  (if query = "" then [] else [.str ("%" ++ query ++ "%")]) ++
  ((if theme = "" then [] else [.str theme]) ++
   (if climate = "" then [] else [.str climate]))

/-- The `WHERE` clauses of the filters, in the order query, theme, climate,
an empty filter contributing none, each with the index of its argument. -/
def filterClauses (query theme climate : String) : String :=
  (if query = "" then "" else " AND (name ILIKE $1 OR description ILIKE $1)") ++
  ((if theme = "" then ""
    else " AND theme = $" ++ toString ((filterArgs query "" "").length + 1)) ++
   (if climate = "" then ""
    else " AND climate = $" ++ toString ((filterArgs query theme "").length + 1)))

/-! ## The rate limiter -/

/-- The value a signed 64-bit integer takes after an operation whose exact
result is `x` (Go arithmetic wraps around). -/
def wrapInt64 (x : Int) : Int :=
  (x + 9223372036854775808) % 18446744073709551616 - 9223372036854775808

/-- Go `time.Second`, a `time.Duration`: a number of nanoseconds. -/
def Second : Int := 1000000000

/-- A counter key of Redis: its value and, when an expiration is set, the
time (in milliseconds) after which the key is expired. -/
structure Counter where
  value : Int
  deadline : Option Int
  deriving DecidableEq, Repr

/-- The Redis server behind the rate limiter, restricted to the counter keys
`rate-limit:<client>`, with the outcomes of the calls to come (`true`: the
call fails). -/
structure RateRedis where
  counters : String → Option Counter
  faults : List Bool

/-- The outcome the environment chooses for the next call. -/
def RateRedis.fault (r : RateRedis) : Bool × RateRedis :=
  match r.faults with
  | [] => (false, r)
  | f :: fs => (f, { r with faults := fs })

/-- The counter under a key as seen at the time `now`: a key whose deadline
has passed is absent. -/
def RateRedis.live (r : RateRedis) (key : String) (now : Int) : Option Counter :=
  match r.counters key with
  | none => none
  | some c =>
    match c.deadline with
    | none => some c
    | some d => if now > d then none else some c

/-- Redis `INCR key` at the time `now`, with its `Result()`: an absent or
expired key counts from 0 and the new key has no expiration; the expiration
of a live key is kept. -/
def RateRedis.Incr (r : RateRedis) (key : String) (now : Int) : Except Error Int × RateRedis :=
  match r.fault with
  | (true, r) => (.error (.driver "redis"), r)
  | (false, r) =>
    match r.live key now with
    | none =>
      (.ok 1, { r with counters := Function.update r.counters key (some ⟨1, none⟩) })
    | some c =>
      (.ok (c.value + 1),
        { r with counters := Function.update r.counters key (some ⟨c.value + 1, c.deadline⟩) })

/-- The number of seconds go-redis sends for a `time.Duration`: a positive
duration below one second is sent as 1, any other is divided by
`time.Second`, rounding towards zero. -/
def formatSec (expiration : Int) : Int :=
  if 0 < expiration ∧ expiration < Second then 1 else Int.tdiv expiration Second

/-- The client call `Expire(ctx, key, expiration)` at the time `now`, that is
Redis `EXPIRE key seconds`: nothing on an absent or expired key; a live key is
deleted when the number of seconds is not positive, and otherwise expires
that many seconds after `now`. -/
def RateRedis.Expire (r : RateRedis) (key : String) (expiration : Int) (now : Int) :
    RateRedis :=
  match r.fault with
  | (true, r) => r
  | (false, r) =>
    match r.live key now with
    | none => r
    | some c =>
      if formatSec expiration ≤ 0 then
        { r with counters := Function.update r.counters key none }
      else
        let c' : Counter := ⟨c.value, some (now + formatSec expiration * 1000)⟩
        { r with counters := Function.update r.counters key (some c') }

/-- A call the rate limiter makes to Redis; the expiration is a
`time.Duration`, in nanoseconds. -/
inductive RedisCall where
  | Incr (key : String)
  | Expire (key : String) (expiration : Int)
  deriving DecidableEq, Repr

/-- What the middleware needs of a request: its route path, the address
`c.RealIP()`, and the time (in milliseconds) at which it is served. -/
structure Request where
  Path : String
  RealIP : String
  At : Int
  deriving DecidableEq, Repr

def isExemptFromRateLimit (path : String) : Bool :=
  path == "/health"

def StatusTooManyRequests : Nat := 429

/-- Go `respondWithRateLimitExceeded`. -/
def respondWithRateLimitExceeded : Response :=
  { status := StatusTooManyRequests, body := .error "Request limit exceeded. Try again later." }

/-- Go `RateLimiter.isRateLimitExceeded`, called with a client that is not
`nil`: the pair it returns, the server after the call, and the calls made. -/
def isRateLimitExceeded (appConfig : AppConfig) (r : RateRedis) (userIP : String) (now : Int) :
    (Bool × Option Error) × RateRedis × List RedisCall :=
  let key := "rate-limit:" ++ userIP
  match r.Incr key now with
  | (.error err, r) => ((false, some err), r, [.Incr key])
  | (.ok count, r) =>
    if count = 1 then
      let windowDuration := wrapInt64 (appConfig.RateWindow * Second)
      ((decide (count > appConfig.RateLimit), none), r.Expire key windowDuration now,
        [.Incr key, .Expire key windowDuration])
    else ((decide (count > appConfig.RateLimit), none), r, [.Incr key])

/-- What the middleware does with a request: it hands it to the next handler
or answers it itself. -/
inductive Passage where
  | next
  | answered (resp : Response)
  deriving DecidableEq, Repr

/-- The handler `RateLimiter.Middleware` returns, on one request: what
happens to the request, the server after it, and the calls made to Redis. -/
def Middleware (appConfig : AppConfig) (redisClient : Option RateRedis) (c : Request) :
    Passage × Option RateRedis × List RedisCall :=
  if isExemptFromRateLimit c.Path then (.next, redisClient, [])
  else
    match redisClient with
    | none => (.next, none, [])
    | some r =>
      match isRateLimitExceeded appConfig r c.RealIP c.At with
      | ((_, some _), r, calls) => (.next, some r, calls)
      | ((true, none), r, calls) => (.answered respondWithRateLimitExceeded, some r, calls)
      | ((false, none), r, calls) => (.next, some r, calls)

/-- Successive requests through the middleware of a live client, each on the
server the previous one left: what happens to each request, in order. -/
def serveAll (appConfig : AppConfig) : List Request → RateRedis → List Passage × RateRedis
  | [], r => ([], r)
  | c :: cs, r =>
    match Middleware appConfig (some r) c with
    | (p, some r', _) =>
      let rest := serveAll appConfig cs r'
      (p :: rest.1, rest.2)
    | (p, none, _) =>
      let rest := serveAll appConfig cs r
      (p :: rest.1, rest.2)

/-- A rate-limit server none of whose coming calls faults. -/
def RateRedis.NoFault (r : RateRedis) : Prop :=
  ∀ b ∈ r.faults, b = false

/-- What the limiter decides for a request whose counter value after the
increment is `count`. -/
def verdict (appConfig : AppConfig) (count : Int) : Passage :=
  if count > appConfig.RateLimit then .answered respondWithRateLimitExceeded else .next

/-- A live rate-limit server holding no key, no call of which faults. -/
def emptyRateRedis : RateRedis :=
  { counters := fun _ => none, faults := [] }

/-- Requests of the client 1.2.3.4 on `/v1/world`, served at the given
times. -/
def requestsAt (times : List Int) : List Request :=
  times.map fun t => { Path := "/v1/world", RealIP := "1.2.3.4", At := t }

/-- Whether the counter key of a client is live at the time `t` on a server;
an absent server holds no key. -/
def keyLive (r : Option RateRedis) (ip : String) (t : Int) : Bool :=
  match r with
  | some r => (r.live ("rate-limit:" ++ ip) t).isSome
  | none => false

/-! ## Lemmas about maps, draws and the shuffle -/

theorem lookup_mem {α β : Type} [BEq α] [LawfulBEq α] {k : α} {v : β} :
    ∀ {l : List (α × β)}, l.lookup k = some v → (k, v) ∈ l
  | [], h => by simp at h
  | (a, b) :: l, h => by
    by_cases hk : k = a
    · subst hk
      simp [List.lookup] at h
      simp [h]
    · have : (k == a) = false := by simpa using hk
      simp only [List.lookup, this] at h
      exact List.mem_cons_of_mem _ (lookup_mem h)

theorem Intn_pos {n : Nat} (hn : 0 < n) (o : Oracle) :
    ∃ k o', Intn n o = some (k, o') ∧ k < n ∧ o'.iter = o.iter := by
  unfold Intn
  rw [if_neg (by omega)]
  cases h : o.rand with
  | nil => exact ⟨0, o, rfl, hn, rfl⟩
  | cons r rs => exact ⟨r % n, _, rfl, Nat.mod_lt _ hn, rfl⟩

theorem cons_set_perm {α : Type} (a b : α) :
    ∀ (xs : List α) (j : Nat), xs[j]? = some b → (b :: xs.set j a).Perm (a :: xs)
  | [], j, h => by simp at h
  | x :: t, 0, h => by
    simp at h
    subst h
    simpa using List.Perm.swap a x t
  | x :: t, j + 1, h => by
    simp at h
    have ih := cons_set_perm a b t j h
    simp only [List.set_cons_succ]
    exact ((List.Perm.swap x b _).trans (ih.cons x)).trans (List.Perm.swap a x t)

theorem set_same {α : Type} (a : α) :
    ∀ (xs : List α) (i : Nat), xs[i]? = some a → xs.set i a = xs
  | [], _, _ => rfl
  | x :: t, 0, h => by
    simp at h
    simp [h]
  | x :: t, i + 1, h => by
    simp at h
    simp [set_same a t i h]

/-- Inside the slice, `swap` does not panic and permutes the slice. -/
theorem swap_perm (xs : List String) (i j : Nat) (hi : i < xs.length) (hj : j < xs.length) :
    ∃ ys, swap xs i j = some ys ∧ ys.Perm xs := by
  have h1 : xs[i]? = some xs[i] := List.getElem?_eq_getElem hi
  have h2 : xs[j]? = some xs[j] := List.getElem?_eq_getElem hj
  refine ⟨(xs.set i xs[j]).set j xs[i], by simp [swap, h1, h2], ?_⟩
  by_cases hij : i = j
  · subst hij
    rw [List.set_set, set_same _ _ _ h1]
  · have h3 : (xs.set i xs[j])[j]? = some xs[j] := by
      rw [List.getElem?_set_ne hij]
      exact h2
    have p1 := cons_set_perm xs[i] xs[j] (xs.set i xs[j]) j h3
    have p2 := cons_set_perm xs[j] xs[i] xs i h1
    exact (p1.trans p2).cons_inv

/-- The loop of the shuffle started at an index of the slice runs to its end
and leaves a permutation of the slice; it does not touch the map-iteration
component of the oracle. -/
theorem shuffleLoop_perm :
    ∀ (i : Nat) (xs : List String) (o : Oracle), (i = 0 ∨ i < xs.length) →
      ∃ ys o', shuffleLoop i xs o = some (ys, o') ∧ ys.Perm xs ∧ o'.iter = o.iter
  | 0, xs, o, _ => ⟨xs, o, rfl, List.Perm.refl _, rfl⟩
  | i + 1, xs, o, h => by
    have hi : i + 1 < xs.length := by omega
    obtain ⟨j, o1, hj, hjlt, ho1⟩ := Intn_pos (Nat.succ_pos (i + 1)) o
    obtain ⟨ys, hys, hp⟩ := swap_perm xs (i + 1) j hi (by omega)
    have hlen : ys.length = xs.length := hp.length_eq
    obtain ⟨zs, o2, hzs, hp2, ho2⟩ := shuffleLoop_perm i ys o1 (by omega)
    refine ⟨zs, o2, ?_, hp2.trans hp, ho2.trans ho1⟩
    simp only [shuffleLoop, hj, hys, Option.bind_eq_bind, Option.some_bind]
    exact hzs

theorem Shuffle_perm (xs : List String) (o : Oracle) :
    ∃ ys o', Shuffle xs o = some (ys, o') ∧ ys.Perm xs ∧ o'.iter = o.iter := by
  unfold Shuffle
  apply shuffleLoop_perm
  cases xs with
  | nil => left; rfl
  | cons x t => right; simp

/-- The function `randomWithoutDuplicates` always returns, and what it returns is the
prefix of length `count` (the whole when `count` exceeds the length, nothing when
`count ≤ 0`) of a permutation of `items`. -/
theorem randomWithoutDuplicates_spec (items : List String) (count : Int) (o : Oracle) :
    ∃ (ys : List String) (o' : Oracle) (p : List String),
      randomWithoutDuplicates items count o = some (ys, o') ∧
      p.Perm items ∧ ys = p.take count.toNat ∧ o'.iter = o.iter := by
  unfold randomWithoutDuplicates
  by_cases hc : count ≤ 0
  · refine ⟨[], o, items, by simp [hc], List.Perm.refl _, ?_, rfl⟩
    have : count.toNat = 0 := by omega
    simp [this]
  · obtain ⟨p, o', hs, hp, ho⟩ := Shuffle_perm items o
    refine ⟨_, o', p, by simp only [hc, if_false, hs, Option.bind_eq_bind, Option.some_bind]; rfl,
      hp, ?_, ho⟩
    by_cases hgt : count > (p.length : Int)
    · simp only [hgt, if_true, Int.toNat_ofNat]
      rw [List.take_of_length_le (le_refl _), List.take_of_length_le (by omega)]
    · simp only [hgt, if_false]

/-- The length of a draw: the smaller of `count` and the length of the source. -/
theorem randomWithoutDuplicates_length {items : List String} {count : Int} {o o' : Oracle}
    {ys : List String} (h : randomWithoutDuplicates items count o = some (ys, o')) :
    ys.length = min count.toNat items.length := by
  obtain ⟨ys', o'', p, h', hp, hy, _⟩ := randomWithoutDuplicates_spec items count o
  rw [h] at h'
  injection h' with h'
  injection h' with h1 h2
  subst h1
  rw [hy, List.length_take, hp.length_eq]

/-- A draw from a duplicate-free source is duplicate-free. -/
theorem randomWithoutDuplicates_nodup {items : List String} {count : Int} {o o' : Oracle}
    {ys : List String} (h : randomWithoutDuplicates items count o = some (ys, o'))
    (hn : items.Nodup) : ys.Nodup := by
  obtain ⟨ys', o'', p, h', hp, hy, _⟩ := randomWithoutDuplicates_spec items count o
  rw [h] at h'
  injection h' with h'
  injection h' with h1 h2
  subst h1
  rw [hy]
  exact ((hp.nodup_iff).mpr hn).sublist (List.take_sublist _ _)

/-- Every entry of a draw is an entry of the source. -/
theorem randomWithoutDuplicates_subset {items : List String} {count : Int} {o o' : Oracle}
    {ys : List String} (h : randomWithoutDuplicates items count o = some (ys, o')) :
    ∀ y ∈ ys, y ∈ items := by
  obtain ⟨ys', o'', p, h', hp, hy, _⟩ := randomWithoutDuplicates_spec items count o
  rw [h] at h'
  injection h' with h'
  injection h' with h1 h2
  subst h1
  intro y hy'
  rw [hy] at hy'
  exact hp.subset (List.mem_of_mem_take hy')

/-- A draw of `count` entries from a source that has at least `count`
entries returns exactly `count` entries of the source, distinct when the
source is duplicate-free. -/
theorem draw_exact (src : List String) (c : Nat) (hc : c ≤ src.length) (o : Oracle) :
    ∃ ys o', randomWithoutDuplicates src (c : Int) o = some (ys, o') ∧ ys.length = c ∧
      (src.Nodup → ys.Nodup) ∧ (∀ y ∈ ys, y ∈ src) ∧ o'.iter = o.iter := by
  obtain ⟨ys, o', p, h, _, _, ho⟩ := randomWithoutDuplicates_spec src c o
  refine ⟨ys, o', h, ?_, randomWithoutDuplicates_nodup h, randomWithoutDuplicates_subset h, ho⟩
  rw [randomWithoutDuplicates_length h]
  simpa using hc

/-! ## Facts about the content tables -/

set_option maxRecDepth 100000 in
theorem featuresByClimate_ok : ∀ e ∈ featuresByClimate, SrcOK e.2 := by decide

set_option maxRecDepth 100000 in
theorem culturesByTheme_ok : ∀ e ∈ culturesByTheme, SrcOK e.2 := by decide

set_option maxRecDepth 100000 in
theorem languagesByTheme_ok : ∀ e ∈ languagesByTheme, SrcOK e.2 := by decide

set_option maxRecDepth 100000 in
theorem faunaByClimate_ok : ∀ t ∈ faunaByClimate, ∀ e ∈ t.2, SrcOK e.2 := by decide

set_option maxRecDepth 100000 in
theorem floraByClimate_ok : ∀ t ∈ floraByClimate, ∀ e ∈ t.2, SrcOK e.2 := by decide

set_option maxRecDepth 100000 in
theorem dangersByTheme_ok : ∀ t ∈ dangersByTheme, ∀ e ∈ t.2, SrcOK e.2 := by decide

/-! ## The fallback chain -/

theorem index2_mem {table : List (String × List (String × List String))}
    {theme climate : String} {l : List String} (h : index2 table theme climate = some l) :
    ∃ t ∈ table, t.1 = theme ∧ (climate, l) ∈ t.2 := by
  unfold index2 at h
  cases ht : table.lookup theme with
  | none => simp [ht] at h
  | some m =>
    rw [ht] at h
    exact ⟨(theme, m), lookup_mem ht, rfl, lookup_mem h⟩

/-- What a `range` loop stopped at its first entry assigns: nothing on an
empty map, the value of one of the entries otherwise.  It draws nothing from
`math/rand`. -/
theorem rangeFirst_spec (m : List (String × List String)) (o : Oracle) :
    (m = [] ∧ (rangeFirst m o).1 = none ∨ ∃ e ∈ m, (rangeFirst m o).1 = some e.2) ∧
      (rangeFirst m o).2.rand = o.rand := by
  cases m with
  | nil => exact ⟨Or.inl ⟨rfl, rfl⟩, rfl⟩
  | cons e es =>
    cases hi : o.iter with
    | nil => exact ⟨Or.inr ⟨e, List.mem_cons_self _ _, by simp [rangeFirst, hi]⟩, by simp [rangeFirst, hi]⟩
    | cons k ks =>
      have hlt : k % (e :: es).length < (e :: es).length := Nat.mod_lt _ (by simp)
      refine ⟨Or.inr ⟨(e :: es)[k % (e :: es).length], List.getElem_mem hlt, ?_⟩, ?_⟩
      · simp only [rangeFirst, hi]
        rw [List.getElem?_eq_getElem hlt]
        rfl
      · simp [rangeFirst, hi]

/-- The three outcomes of the fallback chain on a table with a default
entry: the exact entry when there is one; else an entry of the same theme
when the theme has any; else the default entry. -/
theorem fallbackSource_cases (table : List (String × List (String × List String)))
    (climate theme : String) (o : Oracle) (d : List String)
    (hd : index2 table "fantasy" "Temperate" = some d) :
    ∃ l, (fallbackSource table climate theme o).1 = some l ∧
      (fallbackSource table climate theme o).2.rand = o.rand ∧
      ((index2 table theme climate = some l) ∨
       (index2 table theme climate = none ∧ ∃ e ∈ (table.lookup theme).getD [], e.2 = l) ∨
       (index2 table theme climate = none ∧ (table.lookup theme).getD [] = [] ∧ l = d)) := by
  unfold fallbackSource
  cases hx : index2 table theme climate with
  | some l => exact ⟨l, rfl, rfl, Or.inl rfl⟩
  | none =>
    obtain ⟨hr, hrand⟩ := rangeFirst_spec ((table.lookup theme).getD []) o
    rcases hr with ⟨hm, hnone⟩ | ⟨e, he, hsome⟩
    · refine ⟨d, ?_, ?_, Or.inr (Or.inr ⟨rfl, hm, rfl⟩)⟩
      · generalize hq : rangeFirst ((table.lookup theme).getD []) o = q at hnone hrand
        obtain ⟨q1, q2⟩ := q
        simp only at hnone
        subst hnone
        simpa using hd
      · generalize hq : rangeFirst ((table.lookup theme).getD []) o = q at hnone hrand
        obtain ⟨q1, q2⟩ := q
        simp only at hnone
        subst hnone
        simpa using hrand
    · refine ⟨e.2, ?_, ?_, Or.inr (Or.inl ⟨rfl, e, he, rfl⟩)⟩
      · generalize hq : rangeFirst ((table.lookup theme).getD []) o = q at hsome hrand
        obtain ⟨q1, q2⟩ := q
        simp only at hsome
        subst hsome
        rfl
      · generalize hq : rangeFirst ((table.lookup theme).getD []) o = q at hsome hrand
        obtain ⟨q1, q2⟩ := q
        simp only at hsome
        subst hsome
        simpa using hrand

/-- On a table whose lists are all fit for drawing, the fallback chain ends
on a list fit for drawing, whatever the theme and the climate. -/
theorem fallbackSource_ok (table : List (String × List (String × List String)))
    (hT : ∀ t ∈ table, ∀ e ∈ t.2, SrcOK e.2) (d : List String)
    (hd : index2 table "fantasy" "Temperate" = some d)
    (climate theme : String) (o : Oracle) :
    ∃ l, (fallbackSource table climate theme o).1 = some l ∧
      (fallbackSource table climate theme o).2.rand = o.rand ∧ SrcOK l := by
  obtain ⟨l, h1, h2, h3⟩ := fallbackSource_cases table climate theme o d hd
  refine ⟨l, h1, h2, ?_⟩
  rcases h3 with h | ⟨_, e, he, hl⟩ | ⟨_, _, hl⟩
  · obtain ⟨t, ht, _, hm⟩ := index2_mem h
    exact hT t ht _ hm
  · cases hm : table.lookup theme with
    | none => simp [hm] at he
    | some m =>
      rw [hm] at he
      rw [← hl]
      exact hT _ (lookup_mem hm) e he
  · obtain ⟨t, ht, _, hm⟩ := index2_mem hd
    rw [hl]
    exact hT t ht _ hm

/-! ## Each category draw returns, within its bounds and without duplicates -/

theorem draw_ok (src : List String) (hsrc : SrcOK src) (lo span : Nat) (hspan : 0 < span)
    (hhi : lo + span ≤ 5) (o : Oracle) :
    DrawOK ((Intn span o).bind fun x => randomWithoutDuplicates src ((lo : Int) + (x.1 : Int)) x.2)
      lo (lo + span - 1) := by
  obtain ⟨n, o1, hn, hlt, _⟩ := Intn_pos hspan o
  obtain ⟨ys, o2, h, hlen, hnd, _, _⟩ := draw_exact src (lo + n) (by have := hsrc.1; omega) o1
  refine ⟨ys, o2, ?_, by omega, by omega, hnd hsrc.2⟩
  rw [hn, Option.some_bind]
  simpa using h

theorem randomFeatures_ok (climate : String) (o : Oracle) :
    DrawOK (randomFeatures climate o) 2 4 := by
  have hsrc : SrcOK ((match featuresByClimate.lookup climate with
      | none => featuresByClimate.lookup "Temperate"
      | some feats => some feats).getD []) := by
    cases h : featuresByClimate.lookup climate with
    | none => exact featuresByClimate_ok ("Temperate", _) (lookup_mem (by rfl))
    | some feats => exact featuresByClimate_ok _ (lookup_mem h)
  exact draw_ok _ hsrc 2 3 (by omega) (by omega) o

theorem randomCultures_ok (theme : String) (o : Oracle) :
    DrawOK (randomCultures theme o) 1 3 := by
  have hsrc : SrcOK ((match culturesByTheme.lookup theme with
      | none => culturesByTheme.lookup "fantasy"
      | some cultures => some cultures).getD []) := by
    cases h : culturesByTheme.lookup theme with
    | none => exact culturesByTheme_ok ("fantasy", _) (lookup_mem (by rfl))
    | some cultures => exact culturesByTheme_ok _ (lookup_mem h)
  exact draw_ok _ hsrc 1 3 (by omega) (by omega) o

theorem randomLanguages_ok (theme : String) (o : Oracle) :
    DrawOK (randomLanguages theme o) 1 3 := by
  have hsrc : SrcOK ((match languagesByTheme.lookup theme with
      | none => languagesByTheme.lookup "fantasy"
      | some langs => some langs).getD []) := by
    cases h : languagesByTheme.lookup theme with
    | none => exact languagesByTheme_ok ("fantasy", _) (lookup_mem (by rfl))
    | some langs => exact languagesByTheme_ok _ (lookup_mem h)
  exact draw_ok _ hsrc 1 3 (by omega) (by omega) o

theorem randomFauna_ok (climate theme : String) (o : Oracle) :
    DrawOK (randomFauna climate theme o) 2 4 := by
  obtain ⟨l, h1, _, hl⟩ := fallbackSource_ok faunaByClimate faunaByClimate_ok _ (by rfl) climate theme o
  have := draw_ok l hl 2 3 (by omega) (by omega) (fallbackSource faunaByClimate climate theme o).2
  unfold randomFauna
  generalize fallbackSource faunaByClimate climate theme o = q at h1 this
  obtain ⟨q1, q2⟩ := q
  simp only at h1
  subst h1
  exact this

theorem randomFlora_ok (climate theme : String) (o : Oracle) :
    DrawOK (randomFlora climate theme o) 2 4 := by
  obtain ⟨l, h1, _, hl⟩ := fallbackSource_ok floraByClimate floraByClimate_ok _ (by rfl) climate theme o
  have := draw_ok l hl 2 3 (by omega) (by omega) (fallbackSource floraByClimate climate theme o).2
  unfold randomFlora
  generalize fallbackSource floraByClimate climate theme o = q at h1 this
  obtain ⟨q1, q2⟩ := q
  simp only at h1
  subst h1
  exact this

theorem randomDangers_ok (climate theme : String) (o : Oracle) :
    DrawOK (randomDangers climate theme o) 1 2 := by
  obtain ⟨l, h1, _, hl⟩ := fallbackSource_ok dangersByTheme dangersByTheme_ok _ (by rfl) climate theme o
  have := draw_ok l hl 1 2 (by omega) (by omega) (fallbackSource dangersByTheme climate theme o).2
  unfold randomDangers
  generalize fallbackSource dangersByTheme climate theme o = q at h1 this
  obtain ⟨q1, q2⟩ := q
  simp only at h1
  subst h1
  exact this

/-! ## Names, descriptions and climates -/

theorem lookup_key_mem {β : Type} {k : String} {v : β} {l : List (String × β)}
    (h : l.lookup k = some v) : k ∈ l.map Prod.fst :=
  List.mem_map.mpr ⟨(k, v), lookup_mem h, rfl⟩

/-- The prefix and suffix slices `randomName` indexes are never empty: a
theme with a prefix list also has a suffix list. -/
theorem randomName_ok (theme : String) (o : Oracle) :
    ∃ name o', randomName theme o = some (name, o') := by
  have key : ∃ pre suf : List String, pre.length = 10 ∧ suf.length = 10 ∧
      (match namePrefixes.lookup theme with
        | none => ((namePrefixes.lookup "fantasy").getD [], (nameSuffixes.lookup "fantasy").getD [])
        | some pre => (pre, (nameSuffixes.lookup theme).getD [])) = (pre, suf) := by
    cases h : namePrefixes.lookup theme with
    | none => exact ⟨_, _, by rfl, by rfl, rfl⟩
    | some pre =>
      have hk := lookup_key_mem h
      simp only [namePrefixes, List.map_cons, List.map_nil, List.mem_cons, List.mem_singleton,
        List.not_mem_nil, or_false] at hk
      rcases hk with rfl | rfl | rfl
      · have hp : pre = _ := (Option.some.inj h).symm
        exact ⟨pre, _, by rw [hp]; rfl, by rfl, rfl⟩
      · have hp : pre = _ := (Option.some.inj h).symm
        exact ⟨pre, _, by rw [hp]; rfl, by rfl, rfl⟩
      · have hp : pre = _ := (Option.some.inj h).symm
        exact ⟨pre, _, by rw [hp]; rfl, by rfl, rfl⟩
  obtain ⟨pre, suf, hpre, hsuf, hm⟩ := key
  obtain ⟨i, o1, hi, hilt, _⟩ := Intn_pos (show 0 < pre.length by omega) o
  obtain ⟨j, o2, hj, hjlt, _⟩ := Intn_pos (show 0 < suf.length by omega) o1
  refine ⟨Sprintf "%s%s" [.str pre[i], .str suf[j]], o2, ?_⟩
  unfold randomName
  rw [hm]
  simp only [hi, hj, Option.bind_eq_bind, Option.some_bind, List.getElem?_eq_getElem hilt,
    List.getElem?_eq_getElem hjlt]

/-- With at least two features, `generateDescription` indexes inside its
slices and draws from a non-empty range. -/
theorem generateDescription_ok (theme climate : String) (features fauna flora : List String)
    (hf : 2 ≤ features.length) (o : Oracle) :
    ∃ d o', generateDescription theme climate features fauna flora o = some (d, o') := by
  obtain ⟨k, o1, hk, hklt, _⟩ := Intn_pos (show 0 < templates.length by decide) o
  have h0 : features[0]? = some features[0] := List.getElem?_eq_getElem (by omega)
  have h1 : features[1]? = some features[1] := List.getElem?_eq_getElem (by omega)
  refine ⟨Sprintf templates[k] [.str theme, .str climate, .str features[0], .str features[1],
    .str (if fauna.length > 0 then fauna.headD "" else ""),
    .str (if flora.length > 0 then flora.headD "" else "")], o1, ?_⟩
  unfold generateDescription
  simp only [h0, h1, hk, Option.bind_eq_bind, Option.some_bind, List.getElem?_eq_getElem hklt]

theorem randomClimate_ok (o : Oracle) :
    ∃ c o', randomClimate o = some (c, o') ∧ c ∈ climates := by
  obtain ⟨k, o1, hk, hklt, _⟩ := Intn_pos (show 0 < climates.length by decide) o
  refine ⟨climates[k], o1, ?_, List.getElem_mem hklt⟩
  unfold randomClimate
  simp only [hk, Option.bind_eq_bind, Option.some_bind, List.getElem?_eq_getElem hklt]

/-! ## The world built -/

/-- For every theme string and every oracle, the building part of
`GenerateWorld` runs to its end without a panic; the world has the theme it
was given, no id, a climate of the fixed set, and well-formed categories. -/
theorem buildWorld_ok (theme : String) (o : Oracle) :
    ∃ w o', buildWorld theme o = some (w, o') ∧ w.Theme = theme ∧ w.ID = 0 ∧
      w.Climate ∈ climates ∧ w.WellFormed := by
  obtain ⟨climate, o1, h1, hc⟩ := randomClimate_ok o
  obtain ⟨features, o2, h2, hf1, hf2, hf3⟩ := randomFeatures_ok climate o1
  obtain ⟨fauna, o3, h3, ha1, ha2, ha3⟩ := randomFauna_ok climate theme o2
  obtain ⟨flora, o4, h4, hb1, hb2, hb3⟩ := randomFlora_ok climate theme o3
  obtain ⟨cultures, o5, h5, hc1, hc2, hc3⟩ := randomCultures_ok theme o4
  obtain ⟨dangers, o6, h6, hd1, hd2, hd3⟩ := randomDangers_ok climate theme o5
  obtain ⟨languages, o7, h7, he1, he2, he3⟩ := randomLanguages_ok theme o6
  obtain ⟨name, o8, h8⟩ := randomName_ok theme o7
  obtain ⟨description, o9, h9⟩ :=
    generateDescription_ok theme climate features fauna flora hf1 o8
  obtain ⟨population, o10, h10, _, _⟩ := Intn_pos (show 0 < 10000000 by omega) o9
  refine ⟨{ ID := 0, Name := name, Description := description, Population := population,
            Climate := climate, Features := features, Theme := theme, CreatedAt := 0,
            Fauna := fauna, Flora := flora, Cultures := cultures, Dangers := dangers,
            Languages := languages }, o10, ?_, ?_⟩
  · unfold buildWorld
    simp only [h1, h2, h3, h4, h5, h6, h7, h8, h9, h10, Option.bind_eq_bind, Option.some_bind]
  · exact ⟨rfl, rfl, hc,
      ⟨⟨hf1, hf2⟩, ⟨ha1, ha2⟩, ⟨hb1, hb2⟩, ⟨hc1, hc2⟩, ⟨hd1, hd2⟩, ⟨he1, he2⟩,
        hf3, ha3, hb3, hc3, hd3, he3⟩⟩

/-- The function `GenerateWorld` in terms of its building part: for every input it
returns the world built, with the id of the durable store when an insert
succeeded, together with the nil error; a live cache receives that world
through `cacheWorld`, an absent store stays absent. -/
theorem GenerateWorld_run {σ : Type} (J : Codec σ) (appConfig : AppConfig)
    (dbConfig : DatabaseConfig σ) (theme : String) (o : Oracle) :
    ∃ w0 o' w dbConfig', buildWorld (normalizedTheme theme) o = some (w0, o') ∧
      GenerateWorld J appConfig dbConfig theme o = some ((w, none), dbConfig', o') ∧
      { w with ID := 0 } = w0 ∧
      dbConfig'.RedisClient = dbConfig.RedisClient.map (fun r => cacheWorld J appConfig r w) ∧
      (dbConfig'.DB.isSome = dbConfig.DB.isSome) := by
  obtain ⟨w0, o', hb, _, hid, _, _⟩ := buildWorld_ok (normalizedTheme theme) o
  have hb' : buildWorld (if !validateTheme (if theme = "" then "fantasy" else theme) then "fantasy"
      else (if theme = "" then "fantasy" else theme)) o = some (w0, o') := hb
  cases hdb : dbConfig.DB with
  | none =>
    refine ⟨w0, o', w0,
      ⟨none, dbConfig.RedisClient.map (fun r => cacheWorld J appConfig r w0)⟩,
      hb, ?_, ?_, rfl, rfl⟩
    · unfold GenerateWorld
      simp only [hb', hdb, Option.bind_eq_bind, Option.some_bind]
      cases dbConfig.RedisClient <;> rfl
    · rw [← hid]
  | some db =>
    refine ⟨w0, o', (saveWorldToDB db w0).1,
      ⟨some (saveWorldToDB db w0).2.2,
        dbConfig.RedisClient.map (fun r => cacheWorld J appConfig r (saveWorldToDB db w0).1)⟩,
      hb, ?_, ?_, rfl, rfl⟩
    · unfold GenerateWorld
      simp only [hb', hdb, Option.bind_eq_bind, Option.some_bind]
      cases dbConfig.RedisClient <;> rfl
    · unfold saveWorldToDB
      cases h : db.insertWorld w0 with
      | mk r db' =>
        cases r with
        | error e => simp only; rw [← hid]
        | ok id => simp only; rw [← hid]

theorem validateTheme_iff (theme : String) :
    validateTheme theme = true ↔
      theme = "fantasy" ∨ theme = "sci-fi" ∨ theme = "post-apocalyptic" := by
  simp [validateTheme]

/-- The two tests at the head of `GenerateWorld` keep a valid theme and
replace every other string, the empty one included, by `"fantasy"`. -/
theorem normalizedTheme_eq (theme : String) :
    normalizedTheme theme =
      if theme = "fantasy" ∨ theme = "sci-fi" ∨ theme = "post-apocalyptic" then theme
      else "fantasy" := by
  unfold normalizedTheme
  by_cases he : theme = ""
  · subst he
    decide
  · simp only [he, if_false]
    by_cases hv : validateTheme theme = true
    · rw [if_pos ((validateTheme_iff theme).mp hv)]
      simp [hv]
    · rw [if_neg (fun h => hv ((validateTheme_iff theme).mpr h))]
      simp [hv]

/-- What `GenerateWorld` returns on any input: a world that is well formed
and carries the normalized theme, with the nil error. -/
theorem GenerateWorld_ok {σ : Type} (J : Codec σ) (appConfig : AppConfig)
    (dbConfig : DatabaseConfig σ) (theme : String) (o : Oracle) :
    ∃ w dbConfig' o',
      GenerateWorld J appConfig dbConfig theme o = some ((w, none), dbConfig', o') ∧
      w.WellFormed ∧ w.Theme = normalizedTheme theme ∧ w.Climate ∈ climates := by
  obtain ⟨w0, o', w, dbConfig', hb, hg, hw, _, _⟩ := GenerateWorld_run J appConfig dbConfig theme o
  obtain ⟨w1, o1, hb1, hth, _, hcl, hwf⟩ := buildWorld_ok (normalizedTheme theme) o
  rw [hb] at hb1
  injection hb1 with hb1
  injection hb1 with e1 e2
  subst e1
  subst hw
  exact ⟨w, dbConfig', o', hg, ⟨hwf.1, hwf.2, hwf.3, hwf.4, hwf.5, hwf.6, hwf.7, hwf.8, hwf.9,
    hwf.10, hwf.11, hwf.12⟩, hth, hcl⟩

/-! ## The claims about generation -/

/-- C1: for every theme string (valid, invalid or empty), every outcome of
the random draws and of the map iteration, and every state of the stores,
the world built by `GenerateWorld` has between 2 and 4 features, fauna and
flora, between 1 and 3 cultures, 1 or 2 dangers and between 1 and 3
languages; the climates without an entry in the fauna, flora and dangers
tables are among the cases, the oracle being arbitrary. -/
theorem GenerateWorld_category_bounds {σ : Type} (J : Codec σ) (appConfig : AppConfig)
    (dbConfig : DatabaseConfig σ) (theme : String) (o : Oracle) :
    ∃ w dbConfig' o',
      GenerateWorld J appConfig dbConfig theme o = some ((w, none), dbConfig', o') ∧
      (2 ≤ w.Features.length ∧ w.Features.length ≤ 4) ∧
      (2 ≤ w.Fauna.length ∧ w.Fauna.length ≤ 4) ∧
      (2 ≤ w.Flora.length ∧ w.Flora.length ≤ 4) ∧
      (1 ≤ w.Cultures.length ∧ w.Cultures.length ≤ 3) ∧
      (1 ≤ w.Dangers.length ∧ w.Dangers.length ≤ 2) ∧
      (1 ≤ w.Languages.length ∧ w.Languages.length ≤ 3) := by
  obtain ⟨w, dbConfig', o', hg, hwf, _, _⟩ := GenerateWorld_ok J appConfig dbConfig theme o
  exact ⟨w, dbConfig', o', hg, hwf.features_len, hwf.fauna_len, hwf.flora_len,
    hwf.cultures_len, hwf.dangers_len, hwf.languages_len⟩

/-- C2: for every theme string and every outcome of the draws, none of the
six category sequences of the world built by `GenerateWorld` has a duplicate
entry; `randomWithoutDuplicates` returns a prefix of a permutation of its
input, and every list of the six content tables is duplicate-free. -/
theorem GenerateWorld_no_duplicates {σ : Type} (J : Codec σ) (appConfig : AppConfig)
    (dbConfig : DatabaseConfig σ) (theme : String) (o : Oracle) :
    (∃ w dbConfig' o',
      GenerateWorld J appConfig dbConfig theme o = some ((w, none), dbConfig', o') ∧
      w.Features.Nodup ∧ w.Fauna.Nodup ∧ w.Flora.Nodup ∧ w.Cultures.Nodup ∧
      w.Dangers.Nodup ∧ w.Languages.Nodup) ∧
    (∀ (items : List String) (count : Int) (o : Oracle),
      ∃ (ys : List String) (o' : Oracle) (p : List String),
        randomWithoutDuplicates items count o = some (ys, o') ∧ p.Perm items ∧ ys <+: p) ∧
    (∀ e ∈ featuresByClimate, e.2.Nodup) ∧
    (∀ t ∈ faunaByClimate, ∀ e ∈ t.2, e.2.Nodup) ∧
    (∀ t ∈ floraByClimate, ∀ e ∈ t.2, e.2.Nodup) ∧
    (∀ e ∈ culturesByTheme, e.2.Nodup) ∧
    (∀ t ∈ dangersByTheme, ∀ e ∈ t.2, e.2.Nodup) ∧
    (∀ e ∈ languagesByTheme, e.2.Nodup) := by
  refine ⟨?_, ?_, fun e he => (featuresByClimate_ok e he).2,
    fun t ht e he => (faunaByClimate_ok t ht e he).2,
    fun t ht e he => (floraByClimate_ok t ht e he).2,
    fun e he => (culturesByTheme_ok e he).2,
    fun t ht e he => (dangersByTheme_ok t ht e he).2,
    fun e he => (languagesByTheme_ok e he).2⟩
  · obtain ⟨w, dbConfig', o', hg, hwf, _, _⟩ := GenerateWorld_ok J appConfig dbConfig theme o
    exact ⟨w, dbConfig', o', hg, hwf.features_nodup, hwf.fauna_nodup, hwf.flora_nodup,
      hwf.cultures_nodup, hwf.dangers_nodup, hwf.languages_nodup⟩
  · intro items count o
    obtain ⟨ys, o', p, h, hp, hy, _⟩ := randomWithoutDuplicates_spec items count o
    exact ⟨ys, o', p, h, hp, hy ▸ List.take_prefix _ _⟩

/-- C3: for every input string, `GenerateWorld` returns a world and the nil
error, and the `Theme` of that world is the input when the input is one of
"fantasy", "sci-fi", "post-apocalyptic", and "fantasy" otherwise (the empty
string included). -/
theorem GenerateWorld_theme {σ : Type} (J : Codec σ) (appConfig : AppConfig)
    (dbConfig : DatabaseConfig σ) (theme : String) (o : Oracle) :
    ∃ w dbConfig' o',
      GenerateWorld J appConfig dbConfig theme o = some ((w, none), dbConfig', o') ∧
      w.Theme = (if theme = "fantasy" ∨ theme = "sci-fi" ∨ theme = "post-apocalyptic"
        then theme else "fantasy") := by
  obtain ⟨w, dbConfig', o', hg, _, hth, _⟩ := GenerateWorld_ok J appConfig dbConfig theme o
  exact ⟨w, dbConfig', o', hg, hth.trans (normalizedTheme_eq theme)⟩

/-- C4: `GenerateWorld` never fails.  For every theme string, every oracle
and every state of the two stores (each absent or live, with any outcomes
chosen for its calls) the call ends without a panic and returns a world with
the nil error; in particular `randomName` never indexes an empty slice nor
draws from an empty range, whatever the theme, and `generateDescription`
does not panic on a slice of at least two features. -/
theorem GenerateWorld_never_fails {σ : Type} (J : Codec σ) (appConfig : AppConfig)
    (dbConfig : DatabaseConfig σ) (theme : String) (o : Oracle) :
    (∃ w dbConfig' o',
      GenerateWorld J appConfig dbConfig theme o = some ((w, none), dbConfig', o')) ∧
    (∀ (theme : String) (o : Oracle), (randomName theme o).isSome = true) ∧
    (∀ (theme climate f1 f2 : String) (rest fauna flora : List String) (o : Oracle),
      (generateDescription theme climate (f1 :: f2 :: rest) fauna flora o).isSome = true) := by
  refine ⟨?_, ?_, ?_⟩
  · obtain ⟨w, dbConfig', o', hg, _⟩ := GenerateWorld_ok J appConfig dbConfig theme o
    exact ⟨w, dbConfig', o', hg⟩
  · intro theme o
    obtain ⟨n, o', h⟩ := randomName_ok theme o
    rw [h]
    rfl
  · intro theme climate f1 f2 rest fauna flora o
    obtain ⟨d, o', h⟩ :=
      generateDescription_ok theme climate (f1 :: f2 :: rest) fauna flora (by simp) o
    rw [h]
    rfl

/-! ## The fallback chain of the fauna -/

/-- Every entry of what `randomFauna` returns is an entry of the source list
its fallback chain ended on. -/
theorem randomFauna_subset (climate theme : String) (o : Oracle) (ys : List String)
    (o' : Oracle) (h : randomFauna climate theme o = some (ys, o')) :
    ∀ y ∈ ys, y ∈ (fallbackSource faunaByClimate climate theme o).1.getD [] := by
  unfold randomFauna at h
  generalize fallbackSource faunaByClimate climate theme o = q at h
  obtain ⟨q1, q2⟩ := q
  simp only [Option.bind_eq_bind, Option.bind_eq_some] at h
  obtain ⟨x, _, hx⟩ := h
  exact randomWithoutDuplicates_subset hx

set_option maxRecDepth 100000 in
/-- In the fauna table the climates of a theme are distinct keys: every
entry listed under a theme is the one indexing returns. -/
theorem faunaByClimate_keys :
    ∀ t ∈ faunaByClimate, ∀ e ∈ t.2, index2 faunaByClimate t.1 e.1 = some e.2 := by decide

set_option maxRecDepth 100000 in
/-- Ten of the fifteen climates have no fauna entry, under each theme. -/
theorem faunaByClimate_missing :
    ∀ t ∈ ["fantasy", "sci-fi", "post-apocalyptic"],
      (climates.filter fun c => (index2 faunaByClimate t c).isNone).length = 10 := by decide

/-- C5: the fallback chain of the fauna.  For every valid theme `t`, every
climate `c` and every oracle, `randomFauna(c, t)` returns a non-empty list;
all its entries are entries of `faunaByClimate[t][c]` when that entry exists;
when it does not (the case of 10 of the 15 climates) all its entries are
entries of one list `faunaByClimate[t][c']` of the same theme.  The default
`faunaByClimate["fantasy"]["Temperate"]` is the source only for a theme with
no fauna list at all: for any theme string, the chain ends on a list of that
theme whenever the theme has one. -/
theorem randomFauna_fallback_chain (theme climate : String) (o : Oracle)
    (hvalid : validateTheme theme = true) :
    (∃ ys o', randomFauna climate theme o = some (ys, o') ∧ ys ≠ [] ∧
      (∀ l, index2 faunaByClimate theme climate = some l → ∀ y ∈ ys, y ∈ l) ∧
      (index2 faunaByClimate theme climate = none →
        ∃ c' l, index2 faunaByClimate theme c' = some l ∧ ∀ y ∈ ys, y ∈ l)) ∧
    (climates.filter fun c => (index2 faunaByClimate theme c).isNone).length = 10 ∧
    (∀ (t c : String) (o : Oracle),
      (faunaByClimate.lookup t).getD [] = [] ∨
      ∃ e ∈ (faunaByClimate.lookup t).getD [],
        (fallbackSource faunaByClimate c t o).1 = some e.2) := by
  have hmem : theme ∈ ["fantasy", "sci-fi", "post-apocalyptic"] := by
    have := (validateTheme_iff theme).mp hvalid
    simpa using this
  refine ⟨?_, faunaByClimate_missing theme hmem, ?_⟩
  · obtain ⟨ys, o', h, hlen, _, _⟩ := randomFauna_ok climate theme o
    have hsub := randomFauna_subset climate theme o ys o' h
    obtain ⟨l, h1, _, h3⟩ := fallbackSource_cases faunaByClimate climate theme o _ (by rfl)
    rw [h1] at hsub
    refine ⟨ys, o', h, ?_, ?_, ?_⟩
    · intro hnil
      rw [hnil] at hlen
      simp at hlen
    · intro l' hl'
      rcases h3 with h3 | ⟨h3, _⟩ | ⟨h3, _⟩
      · rw [h3] at hl'
        injection hl' with hl'
        subst hl'
        exact hsub
      · rw [h3] at hl'
        exact absurd hl' (by simp)
      · rw [h3] at hl'
        exact absurd hl' (by simp)
    · intro hnone
      rcases h3 with h3 | ⟨_, e, he, hl⟩ | ⟨_, hempty, _⟩
      · rw [h3] at hnone
        exact absurd hnone (by simp)
      · cases hm : faunaByClimate.lookup theme with
        | none => simp [hm] at he
        | some m =>
          rw [hm] at he
          have := faunaByClimate_keys (theme, m) (lookup_mem hm) e he
          exact ⟨e.1, l, hl ▸ this, hsub⟩
      · exfalso
        simp only [List.mem_cons, List.mem_singleton, List.not_mem_nil, or_false] at hmem
        rcases hmem with rfl | rfl | rfl <;> exact absurd hempty (by decide)
  · intro t c o
    obtain ⟨l, h1, _, h3⟩ := fallbackSource_cases faunaByClimate c t o _ (by rfl)
    rcases h3 with h3 | ⟨_, e, he, hl⟩ | ⟨_, hempty, _⟩
    · right
      unfold index2 at h3
      exact ⟨(c, l), lookup_mem h3, h1⟩
    · right
      exact ⟨e, he, hl ▸ h1⟩
    · left
      exact hempty

/-- A witness of C5: the theme "sci-fi" in the climate "Polar", which has no
fauna entry. -/
theorem randomFauna_fallback_chain_witness :
    validateTheme "sci-fi" = true ∧
    ((∃ ys o', randomFauna "Polar" "sci-fi" ⟨[1, 2, 3], [7]⟩ = some (ys, o') ∧ ys ≠ [] ∧
      (∀ l, index2 faunaByClimate "sci-fi" "Polar" = some l → ∀ y ∈ ys, y ∈ l) ∧
      (index2 faunaByClimate "sci-fi" "Polar" = none →
        ∃ c' l, index2 faunaByClimate "sci-fi" c' = some l ∧ ∀ y ∈ ys, y ∈ l)) ∧
    (climates.filter fun c => (index2 faunaByClimate "sci-fi" c).isNone).length = 10 ∧
    (∀ (t c : String) (o : Oracle),
      (faunaByClimate.lookup t).getD [] = [] ∨
      ∃ e ∈ (faunaByClimate.lookup t).getD [],
        (fallbackSource faunaByClimate c t o).1 = some e.2)) :=
  ⟨by decide, randomFauna_fallback_chain "sci-fi" "Polar" ⟨[1, 2, 3], [7]⟩ (by decide)⟩

/-! ## The description templates -/

set_option maxRecDepth 100000 in
/-- C6 (refuted on the second template): when the draw selects
`templates[1]`, which has five `%s` verbs for the six operands, the theme is
printed in the slot before "climate", the climate and the first feature in
the two feature slots, the second feature in the fauna slot, the fauna entry
in the flora slot, and the flora entry is left over, reported by `fmt` as
`%!(EXTRA string=...)`.  The four templates have 6, 5, 6 and 6 verbs. -/
theorem generateDescription_second_template (theme climate f1 f2 animal plant : String)
    (rest fa fl : List String) (rs ks : List Nat) :
    generateDescription theme climate (f1 :: f2 :: rest) (animal :: fa) (plant :: fl)
        ⟨1 :: rs, ks⟩ =
      some ("A world with " ++ (theme ++ (" climate, where " ++ (climate ++ (" and " ++ (f1 ++
        (" abound. Home to " ++ (f2 ++ (" and magnificent " ++ (animal ++
        ("." ++ ("%!(EXTRA string=" ++ (plant ++ ")")))))))))))), ⟨rs, ks⟩) ∧
    templates.map (fun t => countVerbs t.data) = [6, 5, 6, 6] := by
  have h : Intn templates.length ⟨1 :: rs, ks⟩ = some (1, ⟨rs, ks⟩) := rfl
  refine ⟨?_, by decide⟩
  simp only [generateDescription, List.length_cons, gt_iff_lt, Nat.zero_lt_succ, if_true,
    List.headD_cons, h, Option.bind_eq_bind, Option.some_bind, List.getElem?_cons_zero,
    List.getElem?_cons_succ]
  rfl

/-! ## The history list -/

theorem redisRange_head {σ : Type} (l : List σ) (L : Nat) (hL : 1 ≤ L) :
    redisRange l 0 ((L : Int) - 1) = l.take L := by
  unfold redisRange
  simp only [lt_self_iff_false, if_false]
  split_ifs with c1 c2 c3 c4 c5
  all_goals first
    | (exfalso; omega)
    | (have hl : l = [] := List.length_eq_zero.mp (by omega)
       subst hl
       simp)
    | (have e1 : ((l.length : Int) - 1 - 0 + 1).toNat = l.length := by omega
       rw [e1]
       simp only [Int.toNat_zero, List.drop_zero]
       rw [List.take_of_length_le (le_refl _), List.take_of_length_le (by omega)])
    | (have e1 : ((L : Int) - 1 - 0 + 1).toNat = L := by omega
       rw [e1]
       simp)

theorem redisRange_all {σ : Type} (l : List σ) : redisRange l 0 (-1) = l := by
  unfold redisRange
  simp only [lt_self_iff_false, if_false]
  split_ifs with c1 c2 c3 c4 c5
  all_goals first
    | (exfalso; omega)
    | (have hl : l = [] := List.length_eq_zero.mp (by omega)
       subst hl
       simp)
    | (have e1 : ((l.length : Int) + -1 - 0 + 1).toNat = l.length := by omega
       rw [e1]
       simp)

theorem Redis.fault_of_noFault {σ : Type} (r : Redis σ) (h : r.NoFault) :
    ∃ r', r.fault = (false, r') ∧ r'.lists = r.lists ∧ r'.strings = r.strings ∧ r'.NoFault := by
  unfold Redis.fault
  cases hf : r.faults with
  | nil => exact ⟨r, rfl, rfl, rfl, h⟩
  | cons f fs =>
    have hff : f = false := h f (by rw [hf]; exact List.mem_cons_self _ _)
    subst hff
    exact ⟨{ r with faults := fs }, rfl, rfl, rfl,
      fun b hb => h b (by rw [hf]; exact List.mem_cons_of_mem _ hb)⟩

theorem Redis.LPush_noFault {σ : Type} (r : Redis σ) (h : r.NoFault) (key : String) (v : σ) :
    (r.LPush key v).lists key = v :: r.lists key ∧ (r.LPush key v).NoFault := by
  obtain ⟨r', hf, hl, _, hn⟩ := Redis.fault_of_noFault r h
  unfold Redis.LPush
  rw [hf]
  simp only [Function.update_same, hl]
  exact ⟨trivial, hn⟩

theorem Redis.LTrim_noFault {σ : Type} (r : Redis σ) (h : r.NoFault) (key : String)
    (start stop : Int) :
    (r.LTrim key start stop).lists key = redisRange (r.lists key) start stop ∧
      (r.LTrim key start stop).NoFault := by
  obtain ⟨r', hf, hl, _, hn⟩ := Redis.fault_of_noFault r h
  unfold Redis.LTrim
  rw [hf]
  simp only [Function.update_same, hl]
  exact ⟨trivial, hn⟩

theorem Redis.Set_noFault {σ : Type} (r : Redis σ) (h : r.NoFault) (key : String) (v : σ) :
    (r.Set key v).lists = r.lists ∧ (r.Set key v).NoFault := by
  obtain ⟨r', hf, hl, _, hn⟩ := Redis.fault_of_noFault r h
  unfold Redis.Set
  rw [hf]
  exact ⟨hl, hn⟩

/-- On a cache that does not fault, `cacheWorld` leaves under
`"world-history"` the range `0 .. HistoryLimit-1` of the old list with the
payload of the world put at its head. -/
theorem cacheWorld_history {σ : Type} (J : Codec σ) (appConfig : AppConfig) (r : Redis σ)
    (w : World) (s : σ) (h : r.NoFault) (hm : J.Marshal w = some s) :
    (cacheWorld J appConfig r w).lists "world-history" =
        redisRange (s :: r.lists "world-history") 0 (appConfig.HistoryLimit - 1) ∧
      (cacheWorld J appConfig r w).NoFault := by
  obtain ⟨h1, n1⟩ := Redis.LPush_noFault r h "world-history" s
  obtain ⟨h2, n2⟩ := Redis.LTrim_noFault _ n1 "world-history" 0 (appConfig.HistoryLimit - 1)
  obtain ⟨h3, n3⟩ := Redis.Set_noFault _ n2 (Sprintf "world:%d" [.int w.ID]) s
  unfold cacheWorld
  simp only [hm]
  by_cases hid : w.ID > 0
  · simp only [hid, if_true]
    exact ⟨by rw [h3, h2, h1], n3⟩
  · simp only [hid, if_false]
    exact ⟨by rw [h2, h1], n2⟩

theorem take_append_take {α : Type} (A X : List α) (n : Nat) :
    (A ++ X.take n).take n = (A ++ X).take n := by
  rw [List.take_append_eq_append_take, List.take_append_eq_append_take, List.take_take,
    Nat.min_eq_left (Nat.sub_le _ _)]

/-- One call of `GenerateWorld` on a live cache that does not fault: the
world returned is serialized, and the history becomes the range
`0 .. HistoryLimit-1` of the old history with that payload at its head. -/
theorem GenerateWorld_history {σ : Type} (J : Codec σ) (appConfig : AppConfig)
    (dbConfig : DatabaseConfig σ) (theme : String) (o : Oracle) (r : Redis σ)
    (hr : dbConfig.RedisClient = some r) (hn : r.NoFault)
    (hJ : ∀ w, ∃ s, J.Marshal w = some s ∧ J.Unmarshal s = some w) :
    ∃ w dbConfig' o' r' s,
      GenerateWorld J appConfig dbConfig theme o = some ((w, none), dbConfig', o') ∧
      dbConfig'.RedisClient = some r' ∧ r'.NoFault ∧ J.Marshal w = some s ∧
      r'.lists "world-history" =
        redisRange (s :: r.lists "world-history") 0 (appConfig.HistoryLimit - 1) := by
  obtain ⟨w0, o', w, dbConfig', _, hg, _, hred, _⟩ :=
    GenerateWorld_run J appConfig dbConfig theme o
  obtain ⟨s, hs, _⟩ := hJ w
  obtain ⟨hl, hn'⟩ := cacheWorld_history J appConfig r w s hn hs
  rw [hr] at hred
  exact ⟨w, dbConfig', o', _, s, hg, hred, hn', hs, hl⟩

/-- The history after a run of calls, for a limit of at least one: the
payloads of the worlds returned, the latest first, followed by the old
history, cut to the limit. -/
theorem generateAll_history {σ : Type} (J : Codec σ) (appConfig : AppConfig) (L : Nat)
    (hL : 1 ≤ L) (happ : appConfig.HistoryLimit = (L : Int))
    (hJ : ∀ w, ∃ s, J.Marshal w = some s ∧ J.Unmarshal s = some w) :
    ∀ (themes : List String) (dbConfig : DatabaseConfig σ) (o : Oracle) (r : Redis σ),
      dbConfig.RedisClient = some r → r.NoFault → (r.lists "world-history").length ≤ L →
      ∃ ws dbConfig' o' r',
        generateAll J appConfig themes dbConfig o = some (ws, dbConfig', o') ∧
        ws.length = themes.length ∧ dbConfig'.RedisClient = some r' ∧ r'.NoFault ∧
        r'.lists "world-history" =
          (ws.reverse.filterMap J.Marshal ++ r.lists "world-history").take L
  | [], dbConfig, o, r, hr, hn, hlen =>
    ⟨[], dbConfig, o, r, rfl, rfl, hr, hn, by simp [List.take_of_length_le hlen]⟩
  | theme :: themes, dbConfig, o, r, hr, hn, hlen => by
    obtain ⟨w, dbConfig1, o1, r1, s, hg, hr1, hn1, hs, hl1⟩ :=
      GenerateWorld_history J appConfig dbConfig theme o r hr hn hJ
    rw [happ, redisRange_head _ L hL] at hl1
    have hlen1 : (r1.lists "world-history").length ≤ L := by
      rw [hl1, List.length_take]
      exact Nat.min_le_left _ _
    obtain ⟨ws, dbConfig2, o2, r2, hrun, hwl, hr2, hn2, hl2⟩ :=
      generateAll_history J appConfig L hL happ hJ themes dbConfig1 o1 r1 hr1 hn1 hlen1
    refine ⟨w :: ws, dbConfig2, o2, r2, ?_, by simp [hwl], hr2, hn2, ?_⟩
    · simp only [generateAll, hg, hrun, Option.bind_eq_bind, Option.some_bind]
    · rw [hl2, hl1, take_append_take]
      simp [List.filterMap_append, hs]

theorem filterMap_roundtrip {σ : Type} (J : Codec σ)
    (hJ : ∀ w, ∃ s, J.Marshal w = some s ∧ J.Unmarshal s = some w) :
    ∀ (ws : List World) (n : Nat),
      ((ws.filterMap J.Marshal).take n).filterMap J.Unmarshal = ws.take n
  | [], n => by simp
  | w :: ws, 0 => by simp
  | w :: ws, n + 1 => by
    obtain ⟨s, hs, hu⟩ := hJ w
    simp [List.filterMap_cons, hs, hu, filterMap_roundtrip J hJ ws n]

/-- C7 (refuted at `HistoryLimit = 0`): with a limit of 0 the trim is
`LTRIM world-history 0 -1`, which keeps the whole list; after two calls of
`GenerateWorld` on a live, non-faulting cache with an empty history, the
history holds two entries, more than the limit. -/
theorem history_exceeds_limit_zero :
    (generateAll idCodec { RateLimit := 100, RateWindow := 60, HistoryLimit := 0 }
        ["fantasy", "sci-fi"] { DB := none, RedisClient := some emptyRedis } ⟨[], []⟩).map
      (fun r => (history r.2.1).length) = some 2 := by
  decide

/-- With a limit of 0 nothing is ever trimmed: on a live cache that does
not fault, a run of calls adds one entry to the history per call. -/
theorem history_grows_at_limit_zero {σ : Type} (J : Codec σ) (appConfig : AppConfig)
    (happ : appConfig.HistoryLimit = 0)
    (hJ : ∀ w, ∃ s, J.Marshal w = some s ∧ J.Unmarshal s = some w) :
    ∀ (themes : List String) (dbConfig : DatabaseConfig σ) (o : Oracle) (r : Redis σ),
      dbConfig.RedisClient = some r → r.NoFault →
      ∃ ws dbConfig' o' r',
        generateAll J appConfig themes dbConfig o = some (ws, dbConfig', o') ∧
        dbConfig'.RedisClient = some r' ∧ r'.NoFault ∧
        (r'.lists "world-history").length = themes.length + (r.lists "world-history").length
  | [], dbConfig, o, r, hr, hn => ⟨[], dbConfig, o, r, rfl, hr, hn, by simp⟩
  | theme :: themes, dbConfig, o, r, hr, hn => by
    obtain ⟨w, dbConfig1, o1, r1, s, hg, hr1, hn1, _, hl1⟩ :=
      GenerateWorld_history J appConfig dbConfig theme o r hr hn hJ
    rw [happ, show (0 : Int) - 1 = -1 by rfl, redisRange_all] at hl1
    obtain ⟨ws, dbConfig2, o2, r2, hrun, hr2, hn2, hl2⟩ :=
      history_grows_at_limit_zero J appConfig happ hJ themes dbConfig1 o1 r1 hr1 hn1
    refine ⟨w :: ws, dbConfig2, o2, r2, ?_, hr2, hn2, ?_⟩
    · simp only [generateAll, hg, hrun, Option.bind_eq_bind, Option.some_bind]
    · rw [hl2, hl1]
      simp only [List.length_cons]
      omega

/-- For a limit of at least one, the history never holds more entries than
the limit after a run of calls on a live cache that does not fault. -/
theorem history_within_limit {σ : Type} (J : Codec σ) (appConfig : AppConfig) (L : Nat)
    (hL : 1 ≤ L) (happ : appConfig.HistoryLimit = (L : Int))
    (hJ : ∀ w, ∃ s, J.Marshal w = some s ∧ J.Unmarshal s = some w)
    (themes : List String) (dbConfig : DatabaseConfig σ) (o : Oracle) (r : Redis σ)
    (hr : dbConfig.RedisClient = some r) (hn : r.NoFault)
    (hlen : (r.lists "world-history").length ≤ L) :
    ∃ ws dbConfig' o', generateAll J appConfig themes dbConfig o = some (ws, dbConfig', o') ∧
      (history dbConfig').length ≤ L := by
  obtain ⟨ws, dbConfig', o', r', hrun, _, hr', _, hl⟩ :=
    generateAll_history J appConfig L hL happ hJ themes dbConfig o r hr hn hlen
  refine ⟨ws, dbConfig', o', hrun, ?_⟩
  unfold history
  rw [hr']
  simp only [hl, List.length_take]
  exact Nat.min_le_left _ _

/-- C8: for every limit `L ≥ 1` and every run of `N > L` calls of
`GenerateWorld` on a live cache that does not fault and whose history is
empty, JSON decoding undoing JSON encoding, `GetWorldHistory` then returns
exactly `L` worlds, those returned by the last `L` calls, the most recent
first: its element of index `i` (from 0) is the world of the call of index
`N - 1 - i`. -/
theorem GetWorldHistory_most_recent {σ : Type} (J : Codec σ) (appConfig : AppConfig) (L : Nat)
    (themes : List String) (dbConfig : DatabaseConfig σ) (o : Oracle) (r : Redis σ)
    (hL : 1 ≤ L) (happ : appConfig.HistoryLimit = (L : Int)) (hN : L < themes.length)
    (hr : dbConfig.RedisClient = some r) (hn : r.NoFault)
    (hempty : r.lists "world-history" = [])
    (hJ : ∀ w, ∃ s, J.Marshal w = some s ∧ J.Unmarshal s = some w) :
    ∃ ws dbConfig' o' hist,
      generateAll J appConfig themes dbConfig o = some (ws, dbConfig', o') ∧
      ws.length = themes.length ∧
      (GetWorldHistory J dbConfig').1 = .ok hist ∧
      hist = ws.reverse.take L ∧ hist.length = L ∧
      ∀ i, i < L → hist[i]? = ws[themes.length - 1 - i]? := by
  obtain ⟨ws, dbConfig', o', r', hrun, hwl, hr', hn', hl⟩ :=
    generateAll_history J appConfig L hL happ hJ themes dbConfig o r hr hn (by simp [hempty])
  rw [hempty, List.append_nil] at hl
  refine ⟨ws, dbConfig', o', ws.reverse.take L, hrun, hwl, ?_, rfl, ?_, ?_⟩
  · obtain ⟨r'', hf, hl'', _, _⟩ := Redis.fault_of_noFault r' hn'
    unfold GetWorldHistory
    rw [hr']
    simp only [Redis.LRange, hf, redisRange_all, hl'', hl]
    rw [filterMap_roundtrip J hJ]
  · rw [List.length_take, List.length_reverse]
    omega
  · intro i hi
    rw [List.getElem?_take_of_lt hi, List.getElem?_reverse (by omega), hwl]

/-- A witness of C8: a limit of 1 and two calls, on the empty cache with the
identity codec. -/
theorem GetWorldHistory_most_recent_witness :
    ∃ ws dbConfig' o' hist,
      generateAll idCodec { RateLimit := 100, RateWindow := 60, HistoryLimit := 1 }
        ["fantasy", "sci-fi"] { DB := some emptyDB, RedisClient := some emptyRedis }
        ⟨[3, 1, 4, 1, 5], [9]⟩ = some (ws, dbConfig', o') ∧
      ws.length = ["fantasy", "sci-fi"].length ∧
      (GetWorldHistory idCodec dbConfig').1 = .ok hist ∧
      hist = ws.reverse.take 1 ∧ hist.length = 1 ∧
      ∀ i, i < 1 → hist[i]? = ws[["fantasy", "sci-fi"].length - 1 - i]? :=
  GetWorldHistory_most_recent idCodec { RateLimit := 100, RateWindow := 60, HistoryLimit := 1 } 1
    ["fantasy", "sci-fi"] { DB := some emptyDB, RedisClient := some emptyRedis }
    ⟨[3, 1, 4, 1, 5], [9]⟩ emptyRedis (le_refl 1) rfl (by decide) rfl
    (fun b hb => absurd hb (List.not_mem_nil b)) rfl (fun w => ⟨w, rfl, rfl⟩)

/-! ## Lookup by id -/

/-- C9 (refuted on the read-repair path): a lookup of the id 7, missed by
the empty cache and served by the durable store, returns the row and pushes
its payload on `"world-history"`, which was empty before the call and holds
one entry after it. -/
theorem GetWorldByID_pushes_history :
    history ({ DB := some oneRowDB, RedisClient := some emptyRedis } : DatabaseConfig World) = [] ∧
    (GetWorldByID idCodec { RateLimit := 100, RateWindow := 60, HistoryLimit := 10 }
        { DB := some oneRowDB, RedisClient := some emptyRedis } 7).1 =
      .ok { ID := 7, Name := "Aureia", Description := "", Population := 42, Climate := "Arid",
            Features := ["Canyons", "Mesas"], Theme := "fantasy", CreatedAt := 3, Fauna := [],
            Flora := [], Cultures := [], Dangers := [], Languages := [] } ∧
    history (GetWorldByID idCodec { RateLimit := 100, RateWindow := 60, HistoryLimit := 10 }
        { DB := some oneRowDB, RedisClient := some emptyRedis } 7).2 =
      [{ ID := 7, Name := "Aureia", Description := "", Population := 42, Climate := "Arid",
         Features := ["Canyons", "Mesas"], Theme := "fantasy", CreatedAt := 3, Fauna := [],
         Flora := [], Cultures := [], Dangers := [], Languages := [] }] := by
  exact ⟨rfl, rfl, rfl⟩

set_option maxRecDepth 100000 in
/-- Whatever the id, the text of the not-found error of the service differs
from the text the controller compares it with: the two part at their seventh
character. -/
theorem notFound_text_ne (id : Int) :
    (Error.Errorf (Sprintf "world with ID %d not found" [.int id])).Error ≠ "world not found" := by
  intro h
  have h6 := congrArg (fun s : String => s.data[6]?) h
  have hl : (Error.Errorf (Sprintf "world with ID %d not found" [.int id])).Error.data[6]? =
      some 'w' := rfl
  have hr : ("world not found" : String).data[6]? = some 'n' := by decide
  simp only [hl, hr] at h6
  exact absurd h6 (by decide)

set_option maxRecDepth 100000 in
/-- C10 (refuted): on the id 7, missed by the empty cache and absent from the
durable store, the service returns its not-found error, whose text is
"world with ID 7 not found"; the controller compares the text with
"world not found" and answers 500, not 404. -/
theorem GetWorldByID_not_found_status :
    (GetWorldByID idCodec { RateLimit := 100, RateWindow := 60, HistoryLimit := 10 }
        { DB := some emptyDB, RedisClient := some emptyRedis } 7).1 =
      .error (.Errorf "world with ID 7 not found") ∧
    (WorldController.GetWorldByID idCodec { RateLimit := 100, RateWindow := 60, HistoryLimit := 10 }
        { DB := some emptyDB, RedisClient := some emptyRedis } "7").1 =
      { status := 500, body := .error "world with ID 7 not found" } := by
  exact ⟨by rfl, by decide⟩

/-! ## Errors of the lookup endpoint -/

/-- Whatever error the service returns, the lookup endpoint sends the text
of that error as the body of its answer. -/
theorem GetWorldByID_error_body {σ : Type} (J : Codec σ) (appConfig : AppConfig)
    (dbConfig dbConfig' : DatabaseConfig σ) (idParam : String) (id : Int) (err : Error)
    (hid : parseID idParam = some id)
    (hs : GetWorldByID J appConfig dbConfig id = (.error err, dbConfig')) :
    (WorldController.GetWorldByID J appConfig dbConfig idParam).1.body = .error err.Error := by
  unfold WorldController.GetWorldByID
  rw [hid]
  simp only [hs]

set_option maxRecDepth 100000 in
/-- C11 (refuted): on a query error of the durable store the lookup endpoint
answers 500 with the text of the driver error as its body, and with no
durable store it answers 500 with the text of that other error; the two
bodies differ, and each is the internal error text itself. -/
theorem GetWorldByID_internal_error_body :
    (WorldController.GetWorldByID idCodec { RateLimit := 100, RateWindow := 60, HistoryLimit := 10 }
        { DB := some refusingDB, RedisClient := some emptyRedis } "7").1 =
      { status := 500,
        body := .error "dial tcp 10.0.0.5:5432: connect: connection refused" } ∧
    (WorldController.GetWorldByID idCodec { RateLimit := 100, RateWindow := 60, HistoryLimit := 10 }
        { DB := none, RedisClient := some emptyRedis } "7").1 =
      { status := 500, body := .error "no database connection available" } := by
  exact ⟨by decide, by decide⟩

/-! ## Read-repair and the round trip through the stores -/

theorem PgPool.poolFault_of_noFault (db : PgPool) (h : db.NoFault) :
    ∃ db', db.fault = (none, db') ∧ db'.rows = db.rows ∧ db'.nextID = db.nextID ∧
      db'.clock = db.clock ∧ db'.NoFault := by
  unfold PgPool.fault
  cases hf : db.faults with
  | nil => exact ⟨db, rfl, rfl, rfl, rfl, h⟩
  | cons f fs =>
    have hff : f = none := h f (by rw [hf]; exact List.mem_cons_self _ _)
    subst hff
    exact ⟨{ db with faults := fs }, rfl, rfl, rfl, rfl,
      fun b hb => h b (by rw [hf]; exact List.mem_cons_of_mem _ hb)⟩

/-- On a cache that does not fault, `GET` answers with what is stored under
the key and changes nothing. -/
theorem Redis.Get_noFault {σ : Type} (r : Redis σ) (h : r.NoFault) (key : String) :
    ∃ r', r.Get key =
        ((match r.strings key with
          | some v => .ok v
          | none => .error (.driver "redis: nil")), r') ∧
      r'.strings = r.strings ∧ r'.lists = r.lists ∧ r'.NoFault := by
  obtain ⟨r', hf, hl, hs, hn⟩ := Redis.fault_of_noFault r h
  refine ⟨r', ?_, hs, hl, hn⟩
  unfold Redis.Get
  rw [hf]
  simp only [hs]
  cases r.strings key <;> rfl

/-- On a cache that does not fault, `cacheWorld` stores the payload of a
world with a positive id under `world:<id>`. -/
theorem cacheWorld_strings {σ : Type} (J : Codec σ) (appConfig : AppConfig) (r : Redis σ)
    (w : World) (s : σ) (h : r.NoFault) (hm : J.Marshal w = some s) (hid : w.ID > 0) :
    (cacheWorld J appConfig r w).strings (Sprintf "world:%d" [.int w.ID]) = some s ∧
      (cacheWorld J appConfig r w).NoFault := by
  obtain ⟨_, n1⟩ := Redis.LPush_noFault r h "world-history" s
  obtain ⟨_, n2⟩ := Redis.LTrim_noFault _ n1 "world-history" 0 (appConfig.HistoryLimit - 1)
  obtain ⟨r3, hf, _, _, n3⟩ := Redis.fault_of_noFault _ n2
  unfold cacheWorld
  simp only [hm, hid, if_true]
  unfold Redis.Set
  rw [hf]
  exact ⟨by simp, n3⟩

/-- A lookup served by the cache: when the cache holds under `world:<id>` a
payload that decodes, the lookup returns the decoded world and leaves the
durable store, whatever it is, untouched. -/
theorem GetWorldByID_hit {σ : Type} (J : Codec σ) (appConfig : AppConfig) (db : Option PgPool)
    (r : Redis σ) (id : Int) (s : σ) (w : World) (h : r.NoFault)
    (hs : r.strings (Sprintf "world:%d" [.int id]) = some s) (hu : J.Unmarshal s = some w) :
    ∃ r', GetWorldByID J appConfig { DB := db, RedisClient := some r } id =
      (.ok w, { DB := db, RedisClient := some r' }) := by
  obtain ⟨r', hg, _, _, _⟩ := Redis.Get_noFault r h (Sprintf "world:%d" [.int id])
  rw [hs] at hg
  refine ⟨r', ?_⟩
  unfold GetWorldByID
  simp only [hg, hu]

/-- C12: read-repair.  With both stores live and not faulting, for a
positive id that has a row in the durable store and no entry `world:<id>` in
the cache, JSON decoding undoing JSON encoding, `GetWorldByID(id)` returns the
row; afterwards the cache holds the payload of that world under `world:<id>`,
and a second `GetWorldByID(id)` returns the same world whatever the durable
store then is (absent included), leaving it untouched. -/
theorem GetWorldByID_read_repair {σ : Type} (J : Codec σ) (appConfig : AppConfig)
    (db : PgPool) (r : Redis σ) (id : Int) (row : Row)
    (hid : 0 < id) (hdb : db.NoFault) (hr : r.NoFault)
    (hrow : db.rows.find? (fun x => x.id == id) = some row)
    (hmiss : r.strings (Sprintf "world:%d" [.int id]) = none)
    (hJ : ∀ w, ∃ s, J.Marshal w = some s ∧ J.Unmarshal s = some w) :
    ∃ dbConfig' r' s,
      GetWorldByID J appConfig { DB := some db, RedisClient := some r } id =
        (.ok row.toWorld, dbConfig') ∧
      dbConfig'.RedisClient = some r' ∧ J.Marshal row.toWorld = some s ∧
      r'.strings (Sprintf "world:%d" [.int id]) = some s ∧
      ∀ db2 : Option PgPool, ∃ r'',
        GetWorldByID J appConfig { DB := db2, RedisClient := some r' } id =
          (.ok row.toWorld, { DB := db2, RedisClient := some r'' }) := by
  have hrid : row.id = id := by
    have := List.find?_some hrow
    simpa using this
  obtain ⟨r1, hg, hs1, _, hn1⟩ := Redis.Get_noFault r hr (Sprintf "world:%d" [.int id])
  rw [hmiss] at hg
  obtain ⟨db1, hf, hrows, _, _, _⟩ := PgPool.poolFault_of_noFault db hdb
  obtain ⟨s, hm, hu⟩ := hJ row.toWorld
  have hpos : row.toWorld.ID > 0 := by
    show row.id > 0
    rw [hrid]
    exact hid
  obtain ⟨hstr, hn2⟩ := cacheWorld_strings J appConfig r1 row.toWorld s hn1 hm hpos
  have hkey : Sprintf "world:%d" [.int row.toWorld.ID] = Sprintf "world:%d" [.int id] := by
    show Sprintf "world:%d" [.int row.id] = _
    rw [hrid]
  rw [hkey] at hstr
  have hsel : db.selectWorld id = (.ok row, db1) := by
    unfold PgPool.selectWorld
    rw [hf]
    simp only [hrows, hrow]
  refine ⟨{ DB := some db1, RedisClient := some (cacheWorld J appConfig r1 row.toWorld) },
    cacheWorld J appConfig r1 row.toWorld, s, ?_, rfl, hm, hstr, ?_⟩
  · unfold GetWorldByID
    simp only [hg, hsel]
  · intro db2
    exact GetWorldByID_hit J appConfig db2 _ id s row.toWorld hn2 hstr hu

/-- A witness of C12: the id 7, whose row is the only row of the durable
store, on the empty cache with the identity codec. -/
theorem GetWorldByID_read_repair_witness :
    ∃ dbConfig' r' s,
      GetWorldByID idCodec { RateLimit := 100, RateWindow := 60, HistoryLimit := 10 }
          { DB := some oneRowDB, RedisClient := some emptyRedis } 7 =
        (.ok (Row.toWorld
          { id := 7, name := "Aureia", description := "", population := 42, climate := "Arid",
            features := ["Canyons", "Mesas"], theme := "fantasy", created_at := 3 }), dbConfig') ∧
      dbConfig'.RedisClient = some r' ∧
      idCodec.Marshal (Row.toWorld
          { id := 7, name := "Aureia", description := "", population := 42, climate := "Arid",
            features := ["Canyons", "Mesas"], theme := "fantasy", created_at := 3 }) = some s ∧
      r'.strings (Sprintf "world:%d" [.int 7]) = some s ∧
      ∀ db2 : Option PgPool, ∃ r'',
        GetWorldByID idCodec { RateLimit := 100, RateWindow := 60, HistoryLimit := 10 }
            { DB := db2, RedisClient := some r' } 7 =
          (.ok (Row.toWorld
            { id := 7, name := "Aureia", description := "", population := 42, climate := "Arid",
              features := ["Canyons", "Mesas"], theme := "fantasy", created_at := 3 }),
            { DB := db2, RedisClient := some r'' }) :=
  GetWorldByID_read_repair idCodec { RateLimit := 100, RateWindow := 60, HistoryLimit := 10 }
    oneRowDB emptyRedis 7 _ (by decide) (fun f hf => absurd hf (List.not_mem_nil f))
    (fun b hb => absurd hb (List.not_mem_nil b)) rfl rfl (fun w => ⟨w, rfl, rfl⟩)

/-- The call of `GenerateWorld` on a live durable store, spelled out: the
world returned and the stores left are those of `saveWorldToDB` and
`cacheWorld` applied to the world built. -/
theorem GenerateWorld_run_db {σ : Type} (J : Codec σ) (appConfig : AppConfig)
    (dbConfig : DatabaseConfig σ) (db : PgPool) (theme : String) (o : Oracle)
    (hdb : dbConfig.DB = some db) :
    ∃ w0 o', buildWorld (normalizedTheme theme) o = some (w0, o') ∧ w0.ID = 0 ∧
      GenerateWorld J appConfig dbConfig theme o =
        some (((saveWorldToDB db w0).1, none),
          ⟨some (saveWorldToDB db w0).2.2,
            dbConfig.RedisClient.map
              (fun r => cacheWorld J appConfig r (saveWorldToDB db w0).1)⟩, o') := by
  obtain ⟨w0, o', hb, _, hid, _, _⟩ := buildWorld_ok (normalizedTheme theme) o
  have hb' : buildWorld (if !validateTheme (if theme = "" then "fantasy" else theme) then "fantasy"
      else (if theme = "" then "fantasy" else theme)) o = some (w0, o') := hb
  refine ⟨w0, o', hb, hid, ?_⟩
  unfold GenerateWorld
  simp only [hb', hdb, Option.bind_eq_bind, Option.some_bind]
  cases dbConfig.RedisClient <;> rfl

/-- On a durable store that does not fault, `saveWorldToDB` gives the world
the next id of the sequence and adds its row. -/
theorem saveWorldToDB_noFault (db : PgPool) (w : World) (h : db.NoFault) :
    (saveWorldToDB db w).1 = { w with ID := db.nextID } ∧
      (db.insertWorld w).1 = .ok db.nextID ∧
      (saveWorldToDB db w).2.2.NoFault := by
  obtain ⟨db1, hf, _, hid, _, hn⟩ := PgPool.poolFault_of_noFault db h
  unfold saveWorldToDB PgPool.insertWorld
  rw [hf]
  simp only [hid]
  exact ⟨trivial, trivial, hn⟩

/-- C13: the round trip of a creation and a lookup.  With a live durable
store and a live cache, neither faulting, the id sequence of the store being
positive and JSON decoding undoing JSON encoding, `GenerateWorld` returns a
world `w` whose `ID` is the id the insert was assigned, and the lookup
`GetWorldByID(w.ID)` on the stores it left succeeds and returns `w` itself:
the same id and the same other fields. -/
theorem GenerateWorld_then_GetWorldByID {σ : Type} (J : Codec σ) (appConfig : AppConfig)
    (db : PgPool) (r : Redis σ) (theme : String) (o : Oracle)
    (hdb : db.NoFault) (hpos : 0 < db.nextID) (hr : r.NoFault)
    (hJ : ∀ w, ∃ s, J.Marshal w = some s ∧ J.Unmarshal s = some w) :
    ∃ w dbConfig' o' dbConfig'',
      GenerateWorld J appConfig { DB := some db, RedisClient := some r } theme o =
        some ((w, none), dbConfig', o') ∧
      (db.insertWorld { w with ID := 0 }).1 = .ok w.ID ∧
      w.ID = db.nextID ∧
      GetWorldByID J appConfig dbConfig' w.ID = (.ok w, dbConfig'') := by
  obtain ⟨w0, o', _, hid0, hg⟩ :=
    GenerateWorld_run_db J appConfig { DB := some db, RedisClient := some r } db theme o rfl
  obtain ⟨hw, hins, _⟩ := saveWorldToDB_noFault db w0 hdb
  rw [hw] at hg
  obtain ⟨s, hm, hu⟩ := hJ { w0 with ID := db.nextID }
  obtain ⟨hstr, hn⟩ := cacheWorld_strings J appConfig r { w0 with ID := db.nextID } s hr hm hpos
  obtain ⟨r'', hget⟩ := GetWorldByID_hit J appConfig (some (saveWorldToDB db w0).2.2)
    (cacheWorld J appConfig r { w0 with ID := db.nextID }) db.nextID s
    { w0 with ID := db.nextID } hn hstr hu
  refine ⟨{ w0 with ID := db.nextID }, _, o', _, hg, ?_, rfl, hget⟩
  have e : ({ ({ w0 with ID := db.nextID } : World) with ID := 0 } : World) = w0 := by
    rw [← hid0]
  rw [e]
  exact hins

/-- A witness of C13: a creation on the empty stores with the identity
codec. -/
theorem GenerateWorld_then_GetWorldByID_witness :
    ∃ w dbConfig' o' dbConfig'',
      GenerateWorld idCodec { RateLimit := 100, RateWindow := 60, HistoryLimit := 10 }
          { DB := some emptyDB, RedisClient := some emptyRedis } "sci-fi" ⟨[3, 1, 4], [1]⟩ =
        some ((w, none), dbConfig', o') ∧
      (emptyDB.insertWorld { w with ID := 0 }).1 = .ok w.ID ∧
      w.ID = emptyDB.nextID ∧
      GetWorldByID idCodec { RateLimit := 100, RateWindow := 60, HistoryLimit := 10 }
        dbConfig' w.ID = (.ok w, dbConfig'') :=
  GenerateWorld_then_GetWorldByID idCodec { RateLimit := 100, RateWindow := 60, HistoryLimit := 10 }
    emptyDB emptyRedis "sci-fi" ⟨[3, 1, 4], [1]⟩ (fun f hf => absurd hf (List.not_mem_nil f))
    (by decide) (fun b hb => absurd hb (List.not_mem_nil b)) (fun w => ⟨w, rfl, rfl⟩)

/-! ## The statements of the search -/

set_option maxRecDepth 100000 in
/-- The two statements `SearchWorlds` composes, in closed form: the fixed
head of each query, the clauses of the non-empty filters, and for the page
query the `LIMIT` and `OFFSET` parameters numbered after them. -/
theorem searchStatements_eq (query theme climate : String) (limit offset : Int) :
    searchStatements query theme climate limit offset =
      ({ sql := "SELECT COUNT(*) FROM worlds WHERE 1=1" ++ filterClauses query theme climate,
         args := filterArgs query theme climate },
       { sql := "SELECT id, name, description, population, climate, features, theme, created_at \n\t\t\t\t FROM worlds WHERE 1=1" ++
           filterClauses query theme climate ++ " ORDER BY created_at DESC LIMIT $" ++
           toString ((filterArgs query theme climate).length + 1) ++ " OFFSET $" ++
           toString ((filterArgs query theme climate).length + 2),
         args := filterArgs query theme climate ++
           [.int (if limit ≤ 0 then 10 else limit), .int offset] }) := by
  by_cases hq : query = "" <;> by_cases ht : theme = "" <;> by_cases hc : climate = ""
  all_goals
    simp only [searchStatements, filterClauses, filterArgs, hq, ht, hc, if_true, if_false,
      ne_eq, not_true_eq_false, not_false_eq_true, List.nil_append, List.append_nil,
      List.singleton_append, List.cons_append, List.length_cons, List.length_nil,
      Prod.mk.injEq, Statement.mk.injEq, and_true, true_and]
    exact ⟨by decide, by decide⟩

set_option maxRecDepth 100000 in
/-- The parameters of the two statements: the count statement uses
`$1..$k` and the page statement `$1..$(k+2)`, `k` being the number of
non-empty filters. -/
theorem searchStatements_placeholders (query theme climate : String) (limit offset : Int) :
    (placeholders (searchStatements query theme climate limit offset).1.sql.data).dedup =
        List.range' 1 (filterArgs query theme climate).length ∧
      (placeholders (searchStatements query theme climate limit offset).2.sql.data).dedup =
        List.range' 1 ((filterArgs query theme climate).length + 2) := by
  rw [searchStatements_eq]
  by_cases hq : query = "" <;> by_cases ht : theme = "" <;> by_cases hc : climate = ""
  all_goals
    simp only [filterClauses, filterArgs, hq, ht, hc, if_true, if_false, List.nil_append,
      List.append_nil, List.singleton_append, List.cons_append, List.length_cons,
      List.length_nil]
    exact ⟨by decide, by decide⟩

set_option maxRecDepth 100000 in
/-- C19 (refuted as stated, for a limit that is not positive): on the input
limit 0 the page statement is run with the arguments 10 and 0, not with the
limit 0 and the offset 0. -/
theorem searchStatements_limit_zero :
    (searchStatements "" "" "" 0 0).2.args = [.int 10, .int 0] ∧
    (searchStatements "" "" "" 0 0).2.args ≠ filterArgs "" "" "" ++ [.int 0, .int 0] := by
  decide

/-- C19 (amended): for every query, theme, climate, limit and offset,
`SearchWorlds` appends the same `WHERE` clauses, in the order query, theme,
climate and for the non-empty filters only, to the count query and to the
page query; with `k` the number of non-empty filters, the count statement
uses exactly `$1..$k` and is run with the `k` filter values in that order,
and the page statement uses exactly `$1..$(k+2)` and is run with those values
followed by the effective limit (the limit when it is positive, else 10) and
the offset.  With a live database the count statement is the first statement
run, and the page statement the only one that may follow. -/
theorem searchStatements_composition (query theme climate : String) (limit offset : Int) :
    (searchStatements query theme climate limit offset).1.sql =
      "SELECT COUNT(*) FROM worlds WHERE 1=1" ++ filterClauses query theme climate ∧
    (searchStatements query theme climate limit offset).2.sql =
      "SELECT id, name, description, population, climate, features, theme, created_at \n\t\t\t\t FROM worlds WHERE 1=1" ++
        filterClauses query theme climate ++ " ORDER BY created_at DESC LIMIT $" ++
        toString ((filterArgs query theme climate).length + 1) ++ " OFFSET $" ++
        toString ((filterArgs query theme climate).length + 2) ∧
    (searchStatements query theme climate limit offset).1.args = filterArgs query theme climate ∧
    (searchStatements query theme climate limit offset).2.args =
      filterArgs query theme climate ++ [.int (if limit ≤ 0 then 10 else limit), .int offset] ∧
    (placeholders (searchStatements query theme climate limit offset).1.sql.data).dedup =
      List.range' 1 (filterArgs query theme climate).length ∧
    (placeholders (searchStatements query theme climate limit offset).2.sql.data).dedup =
      List.range' 1 ((filterArgs query theme climate).length + 2) ∧
    (∀ db : SqlServer, ∃ ran,
      (SearchWorlds (some db) query theme climate limit offset).2 =
        (searchStatements query theme climate limit offset).1 :: ran ∧
      (ran = [] ∨ ran = [(searchStatements query theme climate limit offset).2])) := by
  obtain ⟨hp1, hp2⟩ := searchStatements_placeholders query theme climate limit offset
  refine ⟨?_, ?_, ?_, ?_, hp1, hp2, ?_⟩
  · rw [searchStatements_eq]
  · rw [searchStatements_eq]
  · rw [searchStatements_eq]
  · rw [searchStatements_eq]
  · intro db
    unfold SearchWorlds
    cases h1 : db.QueryRow (searchStatements query theme climate limit offset).1 with
    | error e => exact ⟨[], by simp [h1], Or.inl rfl⟩
    | ok total =>
      cases h2 : db.Query (searchStatements query theme climate limit offset).2 with
      | error e => exact ⟨[_], by simp [h1, h2], Or.inr rfl⟩
      | ok rows => exact ⟨[_], by simp [h1, h2], Or.inr rfl⟩

/-- The clauses and the number of arguments of the filters depend only on
which filters are empty. -/
theorem filterClauses_congr (query theme climate query' theme' climate' : String)
    (hq : query = "" ↔ query' = "") (ht : theme = "" ↔ theme' = "")
    (hc : climate = "" ↔ climate' = "") :
    filterClauses query theme climate = filterClauses query' theme' climate' ∧
      (filterArgs query theme climate).length = (filterArgs query' theme' climate').length := by
  by_cases h1 : query = "" <;> by_cases h2 : theme = "" <;> by_cases h3 : climate = ""
  all_goals
    have h1' := h1
    have h2' := h2
    have h3' := h3
    rw [hq] at h1'
    rw [ht] at h2'
    rw [hc] at h3'
    simp [filterClauses, filterArgs, h1, h2, h3, h1', h2', h3']

/-- C20: the text of the two statements of `SearchWorlds` does not depend on
the contents of the filters.  For two inputs that agree on which of query,
theme and climate are empty (their limits and offsets being arbitrary), the
count query texts are equal and the page query texts are equal; the filter
strings occur in the arguments only, the query wrapped in `%`. -/
theorem searchStatements_text_independent
    (query theme climate query' theme' climate' : String) (limit offset limit' offset' : Int)
    (hq : query = "" ↔ query' = "") (ht : theme = "" ↔ theme' = "")
    (hc : climate = "" ↔ climate' = "") :
    (searchStatements query theme climate limit offset).1.sql =
      (searchStatements query' theme' climate' limit' offset').1.sql ∧
    (searchStatements query theme climate limit offset).2.sql =
      (searchStatements query' theme' climate' limit' offset').2.sql ∧
    (searchStatements query theme climate limit offset).1.args = filterArgs query theme climate ∧
    (searchStatements query theme climate limit offset).2.args =
      filterArgs query theme climate ++ [.int (if limit ≤ 0 then 10 else limit), .int offset] := by
  obtain ⟨h1, h2⟩ := filterClauses_congr query theme climate query' theme' climate' hq ht hc
  rw [searchStatements_eq, searchStatements_eq]
  simp only [h1, h2]
  exact ⟨trivial, trivial, trivial, trivial⟩

/-- A witness of C20: two searches with a query and a climate but no theme. -/
theorem searchStatements_text_independent_witness :
    (searchStatements "elf" "" "Arid" 10 0).1.sql =
      (searchStatements "dragon%" "" "Polar" 50 20).1.sql ∧
    (searchStatements "elf" "" "Arid" 10 0).2.sql =
      (searchStatements "dragon%" "" "Polar" 50 20).2.sql ∧
    (searchStatements "elf" "" "Arid" 10 0).1.args = filterArgs "elf" "" "Arid" ∧
    (searchStatements "elf" "" "Arid" 10 0).2.args =
      filterArgs "elf" "" "Arid" ++ [.int (if (10 : Int) ≤ 0 then 10 else 10), .int 0] :=
  searchStatements_text_independent "elf" "" "Arid" "dragon%" "" "Polar" 10 0 50 20
    (by decide) (by decide) (by decide)

/-! ## The rate limiter -/

theorem RateRedis.rateFault_of_noFault (r : RateRedis) (h : r.NoFault) :
    ∃ r', r.fault = (false, r') ∧ r'.counters = r.counters ∧ r'.NoFault := by
  unfold RateRedis.fault
  cases hf : r.faults with
  | nil => exact ⟨r, rfl, rfl, h⟩
  | cons f fs =>
    have hff : f = false := h f (by rw [hf]; exact List.mem_cons_self _ _)
    subst hff
    exact ⟨{ r with faults := fs }, rfl, rfl,
      fun b hb => h b (by rw [hf]; exact List.mem_cons_of_mem _ hb)⟩

theorem RateRedis.live_congr (r r' : RateRedis) (h : r'.counters = r.counters) (key : String)
    (now : Int) : r'.live key now = r.live key now := by
  unfold RateRedis.live
  rw [h]

/-- On a server that does not fault, `INCR` of an absent or expired key
answers 1 and leaves the key without expiration. -/
theorem RateRedis.Incr_dead (r : RateRedis) (key : String) (now : Int) (h : r.NoFault)
    (hd : r.live key now = none) :
    ∃ r', r.Incr key now = (.ok 1, r') ∧ r'.counters key = some ⟨1, none⟩ ∧ r'.NoFault := by
  obtain ⟨r1, hf, hc, hn⟩ := RateRedis.rateFault_of_noFault r h
  have hl : r1.live key now = none := by rw [RateRedis.live_congr r r1 hc]; exact hd
  refine ⟨{ r1 with counters := Function.update r1.counters key (some ⟨1, none⟩) }, ?_, ?_, hn⟩
  · unfold RateRedis.Incr
    rw [hf]
    simp only [hl]
  · simp

/-- On a server that does not fault, `INCR` of a live key adds one to its
value and keeps its expiration. -/
theorem RateRedis.Incr_live (r : RateRedis) (key : String) (now : Int) (c : Counter)
    (h : r.NoFault) (hl : r.live key now = some c) :
    ∃ r', r.Incr key now = (.ok (c.value + 1), r') ∧
      r'.counters key = some ⟨c.value + 1, c.deadline⟩ ∧ r'.NoFault := by
  obtain ⟨r1, hf, hc, hn⟩ := RateRedis.rateFault_of_noFault r h
  have hl1 : r1.live key now = some c := by rw [RateRedis.live_congr r r1 hc]; exact hl
  refine ⟨⟨Function.update r1.counters key (some ⟨c.value + 1, c.deadline⟩), r1.faults⟩,
    ?_, ?_, hn⟩
  · unfold RateRedis.Incr
    rw [hf]
    simp only [hl1]
  · simp

/-- On a server that does not fault, `EXPIRE` of a key without expiration
either deletes it or sets its deadline. -/
theorem RateRedis.Expire_fresh (r : RateRedis) (key : String) (expiration now : Int) (v : Int)
    (h : r.NoFault) (hc : r.counters key = some ⟨v, none⟩) :
    ((r.Expire key expiration now).counters key = none ∨
      ∃ d, (r.Expire key expiration now).counters key = some ⟨v, some d⟩) ∧
      (r.Expire key expiration now).NoFault := by
  obtain ⟨r1, hf, hc1, hn⟩ := RateRedis.rateFault_of_noFault r h
  have hl : r1.live key now = some ⟨v, none⟩ := by
    unfold RateRedis.live
    rw [hc1, hc]
  unfold RateRedis.Expire
  rw [hf]
  simp only [hl]
  by_cases hs : formatSec expiration ≤ 0
  · rw [if_pos hs]
    exact ⟨Or.inl (by simp), hn⟩
  · rw [if_neg hs]
    exact ⟨Or.inr ⟨now + formatSec expiration * 1000, by simp⟩, hn⟩

theorem isExempt_false {path : String} (h : path ≠ "/health") :
    isExemptFromRateLimit path = false := by
  unfold isExemptFromRateLimit
  simpa using h

/-- The request that creates the counter key: on a server that does not
fault and where the key of the client is absent or expired, the verdict is
that of the count 1, `Expire` is called once with the configured window, and
the key is left with a deadline, or deleted when the number of seconds sent
is not positive. -/
theorem Middleware_first (appConfig : AppConfig) (r : RateRedis) (c : Request)
    (hp : c.Path ≠ "/health") (h : r.NoFault)
    (hd : r.live ("rate-limit:" ++ c.RealIP) c.At = none) :
    ∃ r', Middleware appConfig (some r) c =
        (verdict appConfig 1, some r',
          [.Incr ("rate-limit:" ++ c.RealIP),
           .Expire ("rate-limit:" ++ c.RealIP) (wrapInt64 (appConfig.RateWindow * Second))]) ∧
      r'.NoFault ∧
      (r'.counters ("rate-limit:" ++ c.RealIP) = none ∨
        ∃ d, r'.counters ("rate-limit:" ++ c.RealIP) = some ⟨1, some d⟩) := by
  obtain ⟨r1, hi, hc1, hn1⟩ := RateRedis.Incr_dead r _ c.At h hd
  obtain ⟨hcase, hn2⟩ := RateRedis.Expire_fresh r1 ("rate-limit:" ++ c.RealIP)
    (wrapInt64 (appConfig.RateWindow * Second)) c.At 1 hn1 hc1
  refine ⟨_, ?_, hn2, hcase⟩
  unfold Middleware
  rw [isExempt_false hp]
  simp only [isRateLimitExceeded, hi, if_true, Bool.false_eq_true, if_false]
  unfold verdict
  by_cases hv : (1 : Int) > appConfig.RateLimit
  · simp [hv]
  · simp [hv]

/-- A request that finds the counter key live with a value other than 0: on
a server that does not fault the verdict is that of the value plus one, the
only call is the increment, and the deadline of the key is unchanged. -/
theorem Middleware_next (appConfig : AppConfig) (r : RateRedis) (c : Request) (cn : Counter)
    (hp : c.Path ≠ "/health") (h : r.NoFault)
    (hl : r.live ("rate-limit:" ++ c.RealIP) c.At = some cn) (hv : cn.value ≠ 0) :
    ∃ r', Middleware appConfig (some r) c =
        (verdict appConfig (cn.value + 1), some r', [.Incr ("rate-limit:" ++ c.RealIP)]) ∧
      r'.NoFault ∧
      r'.counters ("rate-limit:" ++ c.RealIP) = some ⟨cn.value + 1, cn.deadline⟩ := by
  obtain ⟨r1, hi, hc1, hn1⟩ := RateRedis.Incr_live r _ c.At cn h hl
  refine ⟨r1, ?_, hn1, hc1⟩
  have hne : ¬ (cn.value + 1 = 1) := by omega
  unfold Middleware
  rw [isExempt_false hp]
  simp only [isRateLimitExceeded, hi, hne, if_false, Bool.false_eq_true]
  unfold verdict
  by_cases hv : cn.value + 1 > appConfig.RateLimit
  · simp [hv]
  · simp [hv]

theorem RateRedis.live_of_counter (r : RateRedis) (key : String) (t : Int) (c : Counter)
    (hc : r.counters key = some c) (ha : ∀ d, c.deadline = some d → ¬ (t > d)) :
    r.live key t = some c := by
  unfold RateRedis.live
  rw [hc]
  cases hd : c.deadline with
  | none => simp [hd]
  | some d => simp [hd, ha d hd]

theorem RateRedis.not_past_of_live (r : RateRedis) (key : String) (t v d : Int)
    (hc : r.counters key = some ⟨v, some d⟩) (hl : (r.live key t).isSome = true) :
    ¬ (t > d) := by
  intro hgt
  unfold RateRedis.live at hl
  rw [hc] at hl
  simp [hgt] at hl

/-- Requests that find the key live: on a server that does not fault, the
request of index `i` (from 0) gets the verdict of the count the key had
before the run, plus one, plus `i`. -/
theorem serveAll_live (appConfig : AppConfig) (ip : String) :
    ∀ (rest : List Request) (r : RateRedis) (c0 : Counter), r.NoFault →
      r.counters ("rate-limit:" ++ ip) = some c0 → 1 ≤ c0.value →
      (∀ q ∈ rest, q.Path ≠ "/health" ∧ q.RealIP = ip ∧
        ∀ d, c0.deadline = some d → ¬ (q.At > d)) →
      (serveAll appConfig rest r).1 =
        (List.range rest.length).map (fun (i : Nat) => verdict appConfig (c0.value + 1 + (i : Int)))
  | [], r, c0, _, _, _, _ => rfl
  | q :: qs, r, c0, hn, hc, hv, hq => by
    obtain ⟨hp, hip, ha⟩ := hq q (List.mem_cons_self _ _)
    have hl : r.live ("rate-limit:" ++ q.RealIP) q.At = some c0 := by
      rw [hip]
      exact RateRedis.live_of_counter r _ q.At c0 hc ha
    obtain ⟨r', hm, hn', hc'⟩ := Middleware_next appConfig r q c0 hp hn hl (by omega)
    rw [hip] at hc'
    have ih := serveAll_live appConfig ip qs r' ⟨c0.value + 1, c0.deadline⟩ hn' hc'
      (by show 1 ≤ c0.value + 1; omega)
      (fun x hx => hq x (List.mem_cons_of_mem _ hx))
    have e1 : (serveAll appConfig (q :: qs) r).1 =
        verdict appConfig (c0.value + 1) :: (serveAll appConfig qs r').1 := by
      simp only [serveAll, hm]
    rw [e1, ih, List.length_cons, List.range_succ_eq_map, List.map_cons, List.map_map]
    refine congrArg₂ List.cons ?_ (List.map_congr_left ?_)
    · simp
    · intro i _
      show verdict appConfig (c0.value + 1 + 1 + (i : Int)) =
        verdict appConfig (c0.value + 1 + ((i + 1 : Nat) : Int))
      congr 1
      push_cast
      omega

/-- C14: fixed-window admission.  On a server that does not fault, for a
client whose counter key is absent (or expired) when its first request is
served, and for further requests of that client served while the key that
request created is still live, the `k`-th request is handed to the next
handler if `k ≤ RateLimit` and is answered 429 otherwise; and for a limit of
at least 1, a request served when the key is absent or has expired is handed
to the next handler again.  The requests are not exempt. -/
theorem fixed_window_admission (appConfig : AppConfig) (r : RateRedis) (ip : String)
    (first : Request) (rest : List Request) (hn : r.NoFault)
    (hfirst : first.Path ≠ "/health" ∧ first.RealIP = ip)
    (hdead : r.live ("rate-limit:" ++ ip) first.At = none)
    (hrest : ∀ q ∈ rest, q.Path ≠ "/health" ∧ q.RealIP = ip ∧
      keyLive (Middleware appConfig (some r) first).2.1 ip q.At = true) :
    (serveAll appConfig (first :: rest) r).1 =
        (List.range (rest.length + 1)).map (fun (i : Nat) =>
          if ((i : Int) + 1) ≤ appConfig.RateLimit then Passage.next
          else Passage.answered { status := 429,
                                  body := .error "Request limit exceeded. Try again later." }) ∧
    (∀ (r' : RateRedis) (q : Request), r'.NoFault → q.Path ≠ "/health" → q.RealIP = ip →
      r'.live ("rate-limit:" ++ ip) q.At = none → 1 ≤ appConfig.RateLimit →
      (Middleware appConfig (some r') q).1 = Passage.next) := by
  have hverdict : ∀ n : Int, verdict appConfig n =
      if n ≤ appConfig.RateLimit then Passage.next
      else Passage.answered { status := 429,
                              body := .error "Request limit exceeded. Try again later." } := by
    intro n
    unfold verdict
    by_cases h : n > appConfig.RateLimit
    · rw [if_pos h, if_neg (by omega)]
      rfl
    · rw [if_neg h, if_pos (by omega)]
  constructor
  · obtain ⟨hp, hip⟩ := hfirst
    obtain ⟨r1, hm, hn1, hcase⟩ := Middleware_first appConfig r first hp hn (by rw [hip]; exact hdead)
    rw [hip] at hcase
    rw [hm] at hrest
    rcases hcase with hnone | ⟨d, hsome⟩
    · have hnil : rest = [] := by
        cases rest with
        | nil => rfl
        | cons q qs =>
          obtain ⟨_, _, hl⟩ := hrest q (List.mem_cons_self _ _)
          simp [keyLive, RateRedis.live, hnone] at hl
      subst hnil
      have e1 : (serveAll appConfig [first] r).1 = [verdict appConfig 1] := by
        simp only [serveAll, hm]
      rw [e1, hverdict]
      simp [List.range_succ]
    · have hlive : (serveAll appConfig rest r1).1 =
          (List.range rest.length).map (fun (i : Nat) => verdict appConfig (1 + 1 + (i : Int))) :=
        serveAll_live appConfig ip rest r1 ⟨1, some d⟩ hn1 hsome (le_refl _)
          (fun q hq => by
            obtain ⟨h1, h2, h3⟩ := hrest q hq
            refine ⟨h1, h2, fun d' hd' => ?_⟩
            have hdd : d' = d := by
              simpa using hd'.symm
            rw [hdd]
            exact RateRedis.not_past_of_live r1 _ q.At 1 d hsome h3)
      have e1 : (serveAll appConfig (first :: rest) r).1 =
          verdict appConfig 1 :: (serveAll appConfig rest r1).1 := by
        simp only [serveAll, hm]
      rw [e1, hlive, List.range_succ_eq_map, List.map_cons, List.map_map]
      refine congrArg₂ List.cons ?_ (List.map_congr_left ?_)
      · rw [hverdict]
        simp
      · intro i _
        show verdict appConfig (1 + 1 + (i : Int)) = _
        rw [hverdict]
        have e : (1 : Int) + 1 + (i : Int) = ((i + 1 : Nat) : Int) + 1 := by
          push_cast
          omega
        rw [e]
        rfl
  · intro r' q hn' hp hip hd hL
    obtain ⟨r1, hm, _, _⟩ := Middleware_first appConfig r' q hp hn' (by rw [hip]; exact hd)
    rw [hm, hverdict]
    simp [hL]

set_option maxRecDepth 100000 in
/-- A witness of C14: the limit 5 and the window 60 s; six requests of one
client within the window, on the empty server. -/
theorem fixed_window_admission_witness :
    (serveAll { RateLimit := 5, RateWindow := 60, HistoryLimit := 10 }
        ({ Path := "/v1/world", RealIP := "1.2.3.4", At := 0 } ::
          requestsAt [1000, 2000, 3000, 4000, 5000]) emptyRateRedis).1 =
        (List.range ((requestsAt [1000, 2000, 3000, 4000, 5000]).length + 1)).map
          (fun (i : Nat) =>
            if ((i : Int) + 1) ≤
                ({ RateLimit := 5, RateWindow := 60, HistoryLimit := 10 } : AppConfig).RateLimit
            then Passage.next
            else Passage.answered { status := 429,
                                    body := .error "Request limit exceeded. Try again later." }) ∧
    (∀ (r' : RateRedis) (q : Request), r'.NoFault → q.Path ≠ "/health" → q.RealIP = "1.2.3.4" →
      r'.live ("rate-limit:" ++ "1.2.3.4") q.At = none →
      1 ≤ ({ RateLimit := 5, RateWindow := 60, HistoryLimit := 10 } : AppConfig).RateLimit →
      (Middleware { RateLimit := 5, RateWindow := 60, HistoryLimit := 10 } (some r') q).1 =
        Passage.next) :=
  fixed_window_admission { RateLimit := 5, RateWindow := 60, HistoryLimit := 10 } emptyRateRedis
    "1.2.3.4" { Path := "/v1/world", RealIP := "1.2.3.4", At := 0 }
    (requestsAt [1000, 2000, 3000, 4000, 5000])
    (fun b hb => absurd hb (List.not_mem_nil b)) (by decide) rfl (by decide)

/-- C15: the rate limiter fails open.  With no cache client the middleware
hands every request to the next handler and calls nothing; when the
increment of the counter returns an error (as it does when the call faults)
the request is handed to the next handler, whatever the client, the path and
the counters; and a request on `/health` is handed to the next handler with
no call made and the server left as it was. -/
theorem Middleware_fails_open (appConfig : AppConfig) (r : RateRedis) (c : Request)
    (ip : String) (t : Int) :
    Middleware appConfig none c = (.next, none, []) ∧
    (∀ err r', r.Incr ("rate-limit:" ++ c.RealIP) c.At = (.error err, r') →
      (Middleware appConfig (some r) c).1 = .next) ∧
    (Middleware appConfig (some { counters := r.counters, faults := true :: r.faults }) c).1 =
      .next ∧
    (∀ client : Option RateRedis,
      Middleware appConfig client { Path := "/health", RealIP := ip, At := t } =
        (.next, client, [])) := by
  refine ⟨?_, ?_, ?_, ?_⟩
  · unfold Middleware
    cases isExemptFromRateLimit c.Path <;> rfl
  · intro err r' h
    unfold Middleware
    cases isExemptFromRateLimit c.Path
    · simp only [isRateLimitExceeded, h, Bool.false_eq_true, if_false]
    · rfl
  · unfold Middleware
    cases isExemptFromRateLimit c.Path
    · simp only [isRateLimitExceeded, RateRedis.Incr, RateRedis.fault, Bool.false_eq_true,
        if_false]
    · rfl
  · intro client
    rfl

/-- The product `time.Duration(RateWindow) * time.Second` does not wrap
around for a window of at most 9223372036 seconds in absolute value. -/
theorem wrapInt64_window (w : Int) (h1 : -9223372036 ≤ w) (h2 : w ≤ 9223372036) :
    wrapInt64 (w * Second) = w * Second := by
  unfold wrapInt64 Second
  omega

set_option maxRecDepth 100000 in
/-- C18 (refuted as stated, for a window beyond the range of
`time.Duration`): with `RateWindow = 10000000000` the first request makes the
call `Expire` with the duration -8446744073709551616 ns, the wrapped product,
and not with a duration of 10000000000 seconds. -/
theorem Middleware_expire_duration_wraps :
    (Middleware { RateLimit := 5, RateWindow := 10000000000, HistoryLimit := 10 }
        (some emptyRateRedis) { Path := "/v1/world", RealIP := "1.2.3.4", At := 0 }).2.2 =
      [.Incr "rate-limit:1.2.3.4", .Expire "rate-limit:1.2.3.4" (-8446744073709551616)] ∧
    (-8446744073709551616 : Int) ≠ 10000000000 * Second := by
  decide

/-- C18 (amended): rate-window anchoring.  For every server (faulting or
not) and every request that is not exempt, the middleware calls `Incr` on
`rate-limit:<client>` and then calls `Expire` on that key exactly when the
increment succeeded with the value 1, and makes no other call; the duration
passed is `time.Duration(RateWindow) * time.Second`, which is `RateWindow`
seconds whenever that product fits in 64 bits; and on a server that does not
fault, a request that finds the key live with a value other than 0 leaves
its deadline as it was. -/
theorem Middleware_expire_anchoring (appConfig : AppConfig) (r : RateRedis) (c : Request)
    (hp : c.Path ≠ "/health") :
    (Middleware appConfig (some r) c).2.2 =
      RedisCall.Incr ("rate-limit:" ++ c.RealIP) ::
        (match (r.Incr ("rate-limit:" ++ c.RealIP) c.At).1 with
          | .ok count =>
            if count = 1 then
              [RedisCall.Expire ("rate-limit:" ++ c.RealIP)
                (wrapInt64 (appConfig.RateWindow * Second))]
            else []
          | .error _ => []) ∧
    (-9223372036 ≤ appConfig.RateWindow ∧ appConfig.RateWindow ≤ 9223372036 →
      wrapInt64 (appConfig.RateWindow * Second) = appConfig.RateWindow * 1000000000) ∧
    (∀ cn : Counter, r.NoFault → r.live ("rate-limit:" ++ c.RealIP) c.At = some cn →
      cn.value ≠ 0 →
      ∃ r', (Middleware appConfig (some r) c).2.1 = some r' ∧
        r'.counters ("rate-limit:" ++ c.RealIP) = some ⟨cn.value + 1, cn.deadline⟩) := by
  refine ⟨?_, fun h => wrapInt64_window _ h.1 h.2, ?_⟩
  · unfold Middleware
    rw [isExempt_false hp]
    cases hi : r.Incr ("rate-limit:" ++ c.RealIP) c.At with
    | mk res r' =>
      cases res with
      | error e => simp only [isRateLimitExceeded, hi, Bool.false_eq_true, if_false]
      | ok count =>
        by_cases h1 : count = 1
        · simp only [isRateLimitExceeded, hi, h1, Bool.false_eq_true, if_false, if_true]
          cases decide ((1 : Int) > appConfig.RateLimit) <;> rfl
        · simp only [isRateLimitExceeded, hi, h1, Bool.false_eq_true, if_false]
          cases decide (count > appConfig.RateLimit) <;> rfl
  · intro cn hn hl hv
    obtain ⟨r', hm, _, hc⟩ := Middleware_next appConfig r c cn hp hn hl hv
    exact ⟨r', by rw [hm], hc⟩

set_option maxRecDepth 100000 in
/-- A witness of C18: a request on `/v1/world` on the empty server. -/
theorem Middleware_expire_anchoring_witness :
    (Middleware { RateLimit := 5, RateWindow := 60, HistoryLimit := 10 } (some emptyRateRedis)
        { Path := "/v1/world", RealIP := "1.2.3.4", At := 0 }).2.2 =
      RedisCall.Incr ("rate-limit:" ++ "1.2.3.4") ::
        (match (emptyRateRedis.Incr ("rate-limit:" ++ "1.2.3.4") 0).1 with
          | .ok count =>
            if count = 1 then
              [RedisCall.Expire ("rate-limit:" ++ "1.2.3.4") (wrapInt64 (60 * Second))]
            else []
          | .error _ => []) ∧
    (-9223372036 ≤ (60 : Int) ∧ (60 : Int) ≤ 9223372036 →
      wrapInt64 (60 * Second) = 60 * 1000000000) ∧
    (∀ cn : Counter, emptyRateRedis.NoFault →
      emptyRateRedis.live ("rate-limit:" ++ "1.2.3.4") 0 = some cn → cn.value ≠ 0 →
      ∃ r', (Middleware { RateLimit := 5, RateWindow := 60, HistoryLimit := 10 }
          (some emptyRateRedis) { Path := "/v1/world", RealIP := "1.2.3.4", At := 0 }).2.1 =
            some r' ∧
        r'.counters ("rate-limit:" ++ "1.2.3.4") = some ⟨cn.value + 1, cn.deadline⟩) :=
  Middleware_expire_anchoring { RateLimit := 5, RateWindow := 60, HistoryLimit := 10 }
    emptyRateRedis { Path := "/v1/world", RealIP := "1.2.3.4", At := 0 } (by decide)

/-! ## The limit parameter -/

/-- Go `strconv.Atoi` reads the integer a string denotes, and fails when
that integer does not fit in 64 bits. -/
theorem Atoi_eq_decimalValue (s : String) :
    Atoi s = (decimalValue s).bind fun v =>
      if v < -9223372036854775808 ∨ v > 9223372036854775807 then none else some v := by
  have core : ∀ (p : Bool × List Char),
      (if p.2.isEmpty then none
        else if p.2.all Char.isDigit then
          if (if p.1 then
                -((p.2.foldl (fun a c => 10 * a + (c.toNat - '0'.toNat)) 0 : Nat) : Int)
              else ((p.2.foldl (fun a c => 10 * a + (c.toNat - '0'.toNat)) 0 : Nat) : Int)) <
                -9223372036854775808 ∨
              (if p.1 then
                -((p.2.foldl (fun a c => 10 * a + (c.toNat - '0'.toNat)) 0 : Nat) : Int)
              else ((p.2.foldl (fun a c => 10 * a + (c.toNat - '0'.toNat)) 0 : Nat) : Int)) >
                9223372036854775807
          then none
          else some (if p.1 then
                -((p.2.foldl (fun a c => 10 * a + (c.toNat - '0'.toNat)) 0 : Nat) : Int)
              else ((p.2.foldl (fun a c => 10 * a + (c.toNat - '0'.toNat)) 0 : Nat) : Int))
        else none : Option Int) =
      (if p.2.isEmpty then none
        else if p.2.all Char.isDigit then
          some (if p.1 then
                -((p.2.foldl (fun a c => 10 * a + (c.toNat - '0'.toNat)) 0 : Nat) : Int)
              else ((p.2.foldl (fun a c => 10 * a + (c.toNat - '0'.toNat)) 0 : Nat) : Int))
        else none : Option Int).bind fun v =>
          if v < -9223372036854775808 ∨ v > 9223372036854775807 then none else some v := by
    intro p
    by_cases h1 : p.2.isEmpty = true
    · rw [if_pos h1, if_pos h1]
      rfl
    · rw [if_neg h1, if_neg h1]
      by_cases h2 : (p.2.all Char.isDigit) = true
      · rw [if_pos h2, if_pos h2]
        rfl
      · rw [if_neg h2, if_neg h2]
        rfl
  exact core _

set_option maxRecDepth 100000 in
/-- C16 (refuted as stated, for an integer beyond 64 bits): the string
"9223372036854775808" denotes an integer greater than 100, and
`parseLimitParam` returns 10 on it, not 100. -/
theorem parseLimitParam_out_of_range :
    decimalValue "9223372036854775808" = some 9223372036854775808 ∧
    parseLimitParam "9223372036854775808" = 10 := by
  decide

/-- C16 (amended): for every string, `parseLimitParam` lies in `[1,100]`.
It is 10 when the string is empty, does not denote a decimal integer, or
denotes an integer that is at most 0 or does not fit in 64 bits (above
9223372036854775807); it is 100 when the string denotes an integer above 100
that fits in 64 bits; and it is the integer itself otherwise.  The search
endpoint runs the statements of the service called with that limit, which
reaches the page statement unchanged. -/
theorem parseLimitParam_spec (s : String) :
    (1 ≤ parseLimitParam s ∧ parseLimitParam s ≤ 100) ∧
    parseLimitParam s =
      (match decimalValue s with
        | none => 10
        | some v =>
          if v ≤ 0 then 10
          else if v > 9223372036854775807 then 10
          else if v > 100 then 100
          else v) ∧
    parseLimitParam "" = 10 ∧
    (∀ (DB : Option SqlServer) (query theme climate offsetParam : String),
      (WorldController.SearchWorlds DB query theme climate s offsetParam).2 =
        (SearchWorlds DB query theme climate (parseLimitParam s)
          (parseOffsetParam offsetParam)).2) ∧
    (∀ (query theme climate : String) (offset : Int),
      (searchStatements query theme climate (parseLimitParam s) offset).2.args =
        filterArgs query theme climate ++ [.int (parseLimitParam s), .int offset]) := by
  have heq : parseLimitParam s =
      (match decimalValue s with
        | none => 10
        | some v =>
          if v ≤ 0 then 10
          else if v > 9223372036854775807 then 10
          else if v > 100 then 100
          else v) := by
    unfold parseLimitParam
    by_cases he : s = ""
    · subst he
      rfl
    · simp only [he, if_false]
      rw [Atoi_eq_decimalValue]
      cases decimalValue s with
      | none => rfl
      | some v =>
        simp only [Option.some_bind]
        by_cases hr : v < -9223372036854775808 ∨ v > 9223372036854775807
        · rw [if_pos hr]
          simp only
          split_ifs <;> first | rfl | (exfalso; omega)
        · rw [if_neg hr]
          simp only
          split_ifs <;> first | rfl | (exfalso; omega)
  have hbound : 1 ≤ parseLimitParam s ∧ parseLimitParam s ≤ 100 := by
    rw [heq]
    cases decimalValue s with
    | none => exact ⟨by decide, by decide⟩
    | some v =>
      simp only
      split_ifs <;> constructor <;> omega
  refine ⟨hbound, heq, rfl, ?_, ?_⟩
  · intro DB query theme climate offsetParam
    unfold WorldController.SearchWorlds
    cases h : SearchWorlds DB query theme climate (parseLimitParam s)
        (parseOffsetParam offsetParam) with
    | mk res ran =>
      cases res with
      | error e => simp only [h]
      | ok v =>
        obtain ⟨worlds, total⟩ := v
        simp only [h]
  · intro query theme climate offset
    rw [searchStatements_eq]
    have : ¬ (parseLimitParam s ≤ 0) := by omega
    simp only [this, if_false]

/-! ## Determinism of the fallback chain -/

set_option maxRecDepth 100000 in
/-- C17 (refuted as stated): for the theme "sci-fi" and the climate "Polar",
which has no exact entry, two resolutions with the same draws of `math/rand`
select different source lists when the map iteration starts at different
entries; so it is for the fauna, the flora and the dangers. -/
theorem fallbackSource_not_fixed_by_seed :
    (fallbackSource faunaByClimate "Polar" "sci-fi" ⟨[1, 2, 3], [0]⟩).1 ≠
      (fallbackSource faunaByClimate "Polar" "sci-fi" ⟨[1, 2, 3], [1]⟩).1 ∧
    (fallbackSource floraByClimate "Polar" "sci-fi" ⟨[1, 2, 3], [0]⟩).1 ≠
      (fallbackSource floraByClimate "Polar" "sci-fi" ⟨[1, 2, 3], [1]⟩).1 ∧
    (fallbackSource dangersByTheme "Polar" "sci-fi" ⟨[1, 2, 3], [0]⟩).1 ≠
      (fallbackSource dangersByTheme "Polar" "sci-fi" ⟨[1, 2, 3], [1]⟩).1 := by
  decide

theorem rangeFirst_rand (m : List (String × List String)) (rand rand' iter : List Nat) :
    (rangeFirst m ⟨rand, iter⟩).1 = (rangeFirst m ⟨rand', iter⟩).1 := by
  cases m with
  | nil => rfl
  | cons e es =>
    cases iter with
    | nil => rfl
    | cons k ks => rfl

/-- The source list the chain ends on, as a function of the table, the
theme, the climate and the entry the map iteration visits first. -/
theorem fallbackSource_fst (table : List (String × List (String × List String)))
    (climate theme : String) (o : Oracle) :
    (fallbackSource table climate theme o).1 =
      (match index2 table theme climate with
        | some src => some src
        | none =>
          match (rangeFirst ((table.lookup theme).getD []) o).1 with
          | some src => some src
          | none => index2 table "fantasy" "Temperate") := by
  unfold fallbackSource
  cases index2 table theme climate with
  | some src => rfl
  | none =>
    simp only
    generalize rangeFirst ((table.lookup theme).getD []) o = q
    obtain ⟨q1, q2⟩ := q
    cases q1 <;> rfl

/-- C17 (amended): the resolution of the source list is deterministic given
the order of the map iteration, and the random seed plays no part in it.
For every table (fauna, flora, dangers), theme and climate, two resolutions
whose map iteration makes the same choices select the same list whatever the
draws of `math/rand`; and when the exact entry exists, every resolution
selects it, whatever the oracle. -/
theorem fallbackSource_deterministic (table : List (String × List (String × List String)))
    (climate theme : String) (rand rand' iter : List Nat) :
    (fallbackSource table climate theme ⟨rand, iter⟩).1 =
      (fallbackSource table climate theme ⟨rand', iter⟩).1 ∧
    (∀ (src : List String) (o : Oracle), index2 table theme climate = some src →
      (fallbackSource table climate theme o).1 = some src) := by
  constructor
  · rw [fallbackSource_fst, fallbackSource_fst, rangeFirst_rand _ rand rand' iter]
  · intro src o h
    rw [fallbackSource_fst, h]

end WorldGen
